import Mathlib

/-!
Shallow embedding of the Emoji Pair Finder game bot (`src/bot.py`).

The embedding models the game-state machine: grid generation
(`generate_game_grid`), the tile reveal / match resolver (`handle_pick`),
session finalization (`finalize_game`, `handle_end_game`) and the per-user
cooldown gate wrapped around them (`cb_game_actions`).

MongoDB documents are modelled as Lean structures; the `users` collection is
an association list keyed by user id (update without upsert leaves a missing
record missing, exactly as `update_one` without `upsert=True` does).
Timestamps (`time.time()` floats) are modelled as rationals.  The two sources
of randomness in `generate_game_grid` (`random.sample`, `random.shuffle`) are
modelled by quantifying over the sampled emoji list and the shuffle function.
-/

namespace EmojiPair

/-- One grid cell: `{"emoji": ..., "matched": bool}` built in
`generate_game_grid`. -/
structure Tile where
  emoji : String
  matched : Bool
deriving DecidableEq, Repr

/-- Per-player counters stored inside a game document under
`players.<uid>`: `{"pairs_found": .., "score": ..}`. -/
structure PlayerStats where
  pairs_found : Nat
  score : Nat
deriving DecidableEq, Repr

/-- A document of the `users` collection (the fields the game logic reads
and writes; a missing Mongo field reads as 0, so fields are total here). -/
structure UserRec where
  games_played : Nat
  pairs_found : Nat
  total_points : Nat
  best_score : Nat
  cooldown_until : ℚ
deriving DecidableEq, Repr

/-- A document of the `chats` collection (the counters touched by
`finalize_game`). -/
structure ChatRec where
  games_played : Nat
  total_activity : Nat
deriving DecidableEq, Repr

/-- A game document, as created by `cb_size_select` and mutated by
`handle_pick` / `finalize_game`. -/
structure Session where
  owner_id : Nat
  rows : Nat
  cols : Nat
  grid : List Tile
  revealed : List Nat
  score : Nat
  pairs_found : Nat
  filler : Option String
  players : List (Nat × PlayerStats)
  is_finished : Bool
  started_at : ℚ
  finished_at : Option ℚ
deriving DecidableEq, Repr

/-- The store state an inbound game callback can touch: the game document
it addresses, the `users` collection and the owning chat's record. -/
structure World where
  sess : Session
  users : List (Nat × UserRec)
  chat : ChatRec
deriving DecidableEq, Repr

/-- `EMOJI_POOL` from `bot.py` (40 distinct emojis). -/
def EMOJI_POOL : List String :=
  ["😀","😅","😂","🤣","😊","😍","😎","😉","🤩","🤓",
   "😇","🥳","🤠","😺","🐶","🐱","🦊","🐻","🐼","🦁",
   "🍎","🍌","🍇","🍓","🍒","🍉","🍩","🍪","🍰","☕",
   "⚽","🏀","🏈","🎮","🎲","🎯","🎹","🎸","🚗","✈️"]

/-- The filler sentinel appended for odd grids (`"⬜"` in
`generate_game_grid`). -/
def FILLER : String := "⬜"

/-- The set of possible outputs of `random.sample(pool, k)`: `k` pairwise
distinct elements drawn from `pool` without replacement. -/
def Sampled (pool : List String) (k : Nat) (l : List String) : Prop :=
  l.length = k ∧ l.Nodup ∧ ∀ e ∈ l, e ∈ pool

instance (pool : List String) (k : Nat) (l : List String) :
    Decidable (Sampled pool k l) := by
  unfold Sampled
  infer_instance

/-- A model of one possible behaviour of `random.shuffle`: the function
returns a permutation of its input. -/
def ShuffleOK (shuffle : List String → List String) : Prop :=
  ∀ l : List String, List.Perm (shuffle l) l

/-- `generate_game_grid(rows, cols)` from `bot.py`, with the randomness
passed in: `choice` is the outcome of `random.sample(EMOJI_POOL, pair_count)`
(`none` results when no such sample exists, i.e. `random.sample` raises),
and `shuffle` is the permutation applied by `random.shuffle`. -/
def generate_game_grid (rows cols : Nat) (choice : List String)
    (shuffle : List String → List String) :
    Option (List Tile × Option String) :=
  let total := rows * cols
  let pair_count := total / 2
  if Sampled EMOJI_POOL pair_count choice then
    let deck0 := choice.flatMap fun e => [e, e]
    let fd : Option String × List String :=
      if total % 2 = 1 then (some FILLER, deck0 ++ [FILLER]) else (none, deck0)
    let deck := shuffle fd.2
    some ((List.range total).map fun i => ⟨deck.getD i "", false⟩, fd.1)
  else
    none

/-- Default tile used to totalize list indexing (indices are in range in
every reachable use). -/
def defaultTile : Tile := ⟨"", false⟩

/-- Association-list lookup, modelling `find_one({"user_id": uid})`. -/
def findUser : List (Nat × UserRec) → Nat → Option UserRec
  | [], _ => none
  | (k, r) :: rest, uid => if k = uid then some r else findUser rest uid

/-- `update_one({"user_id": uid}, ...)` without `upsert`: apply `f` to the
record if present, otherwise leave the collection unchanged. -/
def updUser : List (Nat × UserRec) → Nat → (UserRec → UserRec) → List (Nat × UserRec)
  | [], _, _ => []
  | (k, r) :: rest, uid, f =>
      if k = uid then (k, f r) :: rest else (k, r) :: updUser rest uid f

/-- The all-zero user record: the view of a freshly upserted document whose
unset numeric fields read as 0. -/
def zeroUser : UserRec := ⟨0, 0, 0, 0, 0⟩

/-- `update_one({"user_id": uid}, ..., upsert=True)`: apply `f` to the
record if present, otherwise insert `f zeroUser`. -/
def upsertUser (users : List (Nat × UserRec)) (uid : Nat) (f : UserRec → UserRec) :
    List (Nat × UserRec) :=
  match findUser users uid with
  | some _ => updUser users uid f
  | none => users ++ [(uid, f zeroUser)]

/-- Lookup in a game document's `players` mapping. -/
def lookupPlayer : List (Nat × PlayerStats) → Nat → Option PlayerStats
  | [], _ => none
  | (k, r) :: rest, uid => if k = uid then some r else lookupPlayer rest uid

/-- `$inc` on `players.<uid>.pairs_found` / `players.<uid>.score`: a missing
key is created (at the end, as in a Python dict) with the increments applied
to zero. -/
def incPlayer : List (Nat × PlayerStats) → Nat → Nat → Nat → List (Nat × PlayerStats)
  | [], uid, dp, ds => [(uid, ⟨dp, ds⟩)]
  | (k, r) :: rest, uid, dp, ds =>
      if k = uid then (k, ⟨r.pairs_found + dp, r.score + ds⟩) :: rest
      else (k, r) :: incPlayer rest uid dp ds

/-- `grid[i]["matched"] = True` (the emoji is untouched). -/
def setMatched (grid : List Tile) (i : Nat) : List Tile :=
  grid.set i ⟨(grid.getD i defaultTile).emoji, true⟩

/-- `all(c.get("matched", False) for c in grid)`. -/
def all_matched (grid : List Tile) : Bool := grid.all (·.matched)

/-- `COOLDOWN_SECONDS = 1.0`. -/
def COOLDOWN_SECONDS : ℚ := 1

/-- `finalize_game(chat_id, game_doc)`: the per-participant lifetime update.
`games_played` is `$inc`-ed without upsert, then the document is re-read and
`best_score` is `$set` (again without upsert) when `score and score >
user.get("best_score", 0)`. -/
def bumpFinal (users : List (Nat × UserRec)) (p : Nat × PlayerStats) :
    List (Nat × UserRec) :=
  let users2 := updUser users p.1 fun r => { r with games_played := r.games_played + 1 }
  match findUser users2 p.1 with
  | none => users2
  | some r =>
      if p.2.score ≠ 0 ∧ r.best_score < p.2.score then
        updUser users2 p.1 fun u => { u with best_score := p.2.score }
      else
        users2

/-- `finalize_game`: roll every entry of `players` into the users
collection, bump the chat counters, and mark the game finished. -/
def finalize_game (w : World) (now : ℚ) : World :=
  { w with
    users := w.sess.players.foldl bumpFinal w.users
    chat := { w.chat with
              games_played := w.chat.games_played + 1
              total_activity := w.chat.total_activity + 1 }
    sess := { w.sess with is_finished := true, finished_at := some now } }

/-- The `all_matched` re-check at the end of a two-tile resolution in
`handle_pick`: finalize when every tile is matched. -/
def maybeFinalize (w : World) (now : ℚ) : World :=
  if all_matched w.sess.grid then finalize_game w now else w

/-- The user-visible outcome of one `handle_pick` call (which
`callback.answer` text was sent). -/
inductive PickResult where
  | invalidCell
  | alreadyMatched
  | alreadyRevealed
  | singleReveal (emoji : String)
  | matchFound
  | fillerFound
  | noMatch
deriving DecidableEq, Repr

/-- `handle_pick(callback, game_doc, index)`: validate the position, reveal
it, and when it is the second revealed tile resolve match / filler /
mismatch, then re-check for completion. `uid` is `callback.from_user.id`,
`now` the wall clock used for a possible finalization timestamp. -/
def handle_pick (w : World) (uid : Nat) (index : Int) (now : ℚ) :
    World × PickResult :=
  let g := w.sess
  let total : Int := (g.rows * g.cols : Nat)
  if index < 0 ∨ total ≤ index then
    (w, .invalidCell)
  else
    let i : Nat := index.toNat
    if (g.grid.getD i defaultTile).matched then
      (w, .alreadyMatched)
    else if i ∈ g.revealed then
      (w, .alreadyRevealed)
    else
      let revealed := g.revealed ++ [i]
      if revealed.length = 2 then
        let i1 := revealed.getD 0 0
        let i2 := revealed.getD 1 0
        let e1 := (g.grid.getD i1 defaultTile).emoji
        let e2 := (g.grid.getD i2 defaultTile).emoji
        if e1 = e2 then
          let sess2 : Session :=
            { g with
              grid := setMatched (setMatched g.grid i1) i2
              pairs_found := g.pairs_found + 1
              score := g.score + 10
              players := incPlayer g.players uid 1 10
              revealed := [] }
          let users2 := updUser w.users uid fun r =>
            { r with pairs_found := r.pairs_found + 1
                     total_points := r.total_points + 10 }
          (maybeFinalize { w with sess := sess2, users := users2 } now, .matchFound)
        else
          match g.filler with
          | some f =>
            if e1 = f ∨ e2 = f then
              let gridA := if e1 = f then setMatched g.grid i1 else g.grid
              let gridB := if e2 = f then setMatched gridA i2 else gridA
              let sess2 : Session := { g with grid := gridB, revealed := [] }
              (maybeFinalize { w with sess := sess2 } now, .fillerFound)
            else
              (maybeFinalize { w with sess := { g with revealed := [] } } now, .noMatch)
          | none =>
              (maybeFinalize { w with sess := { g with revealed := [] } } now, .noMatch)
      else
        ({ w with sess := { g with revealed := revealed } },
         .singleReveal (g.grid.getD i defaultTile).emoji)

/-- `handle_end_game`: any participant may end the game; it just finalizes. -/
def handle_end_game (w : World) (now : ℚ) : World := finalize_game w now

/-- The two game actions dispatched by `cb_game_actions`. -/
inductive Action where
  | pick (index : Int)
  | endGame
deriving DecidableEq, Repr

/-- Outcome of one callback through `cb_game_actions`. -/
inductive CbResult where
  | rateLimited
  | pickRes (r : PickResult)
  | ended
deriving DecidableEq, Repr

/-- The cooldown the gate reads for a user:
`(find_one(...) or dict with cooldown_until 0).get("cooldown_until", 0)`. -/
def cooldownOf (w : World) (uid : Nat) : ℚ :=
  ((findUser w.users uid).map UserRec.cooldown_until).getD 0

/-- The cooldown arming step of `cb_game_actions`:
`update_one({"user_id": uid}, {"$set": {"cooldown_until": now + COOLDOWN_SECONDS}}, upsert=True)`. -/
def armCooldown (w : World) (uid : Nat) (now : ℚ) : World :=
  { w with users := upsertUser w.users uid fun r =>
      { r with cooldown_until := now + COOLDOWN_SECONDS } }

/-- `cb_game_actions`: the per-user anti-spam gate followed by dispatch to
`handle_pick` or `handle_end_game`.  On passing the gate the user's
`cooldown_until` is `$set` (with upsert) to `now + COOLDOWN_SECONDS` before
the action runs. -/
def cb_game_actions (w : World) (uid : Nat) (act : Action) (now : ℚ) :
    World × CbResult :=
  if now < cooldownOf w uid then
    (w, .rateLimited)
  else
    match act with
    | .pick index =>
        let res := handle_pick (armCooldown w uid now) uid index now
        (res.1, .pickRes res.2)
    | .endGame => (handle_end_game (armCooldown w uid now) now, .ended)

/-- The game document inserted by `cb_size_select` once a size is chosen
(grid and filler come from `generate_game_grid`). -/
def new_game_doc (owner rows cols : Nat) (grid : List Tile)
    (filler : Option String) (startedAt : ℚ) : Session :=
  { owner_id := owner
    rows := rows
    cols := cols
    grid := grid
    revealed := []
    score := 0
    pairs_found := 0
    filler := filler
    players := [(owner, ⟨0, 0⟩)]
    is_finished := false
    started_at := startedAt
    finished_at := none }

/-- One inbound game callback: acting user, action, wall-clock time. -/
structure Ev where
  uid : Nat
  act : Action
  now : ℚ

/-- Run a sequence of callbacks through `cb_game_actions`. -/
def run (w : World) : List Ev → World
  | [] => w
  | e :: rest => run (cb_game_actions w e.uid e.act e.now).1 rest

/-- The users credited with a successful (points-awarding) match along a
run: those callbacks whose outcome was `matchFound`. -/
def matchersOf (w : World) : List Ev → List Nat
  | [] => []
  | e :: rest =>
      (if (cb_game_actions w e.uid e.act e.now).2 = .pickRes .matchFound
       then [e.uid] else [])
      ++ matchersOf (cb_game_actions w e.uid e.act e.now).1 rest

/-- The three rejection conditions of `handle_pick` (invalid cell, already
matched, already revealed), as a predicate on the session and index. -/
def pickErr (g : Session) (index : Int) : Bool :=
  decide (index < 0) || decide ((g.rows * g.cols : Nat) ≤ index) ||
    (g.grid.getD index.toNat defaultTile).matched ||
    decide (index.toNat ∈ g.revealed)

/-- Which `PickResult`s are rejections. -/
def isErr : PickResult → Bool
  | .invalidCell => true
  | .alreadyMatched => true
  | .alreadyRevealed => true
  | _ => false

/-- Which `PickResult`s are pair resolutions (second-reveal outcomes). -/
def isResolution : PickResult → Bool
  | .matchFound => true
  | .fillerFound => true
  | .noMatch => true
  | _ => false

end EmojiPair

namespace EmojiPair


/-! ### Invariant definitions and concrete scenario states -/

/-- C9's invariant: aggregate and per-player score are ten times the
pair counters. -/
def Inv9 (s : Session) : Prop :=
  s.score = 10 * s.pairs_found ∧ ∀ p ∈ s.players, p.2.score = 10 * p.2.pairs_found

def wC1 : World :=
  { sess := new_game_doc 7 1 2 [⟨"😀", false⟩, ⟨"😀", false⟩] none 0
    users := []
    chat := ⟨0, 0⟩ }

def wC1b : World :=
  { sess := { new_game_doc 7 1 2 [⟨"😀", true⟩, ⟨"😀", true⟩] none 0 with
              is_finished := true }
    users := []
    chat := ⟨0, 0⟩ }

def wC4 : World :=
  { sess := new_game_doc 7 1 2 [⟨"😀", false⟩, ⟨"😀", false⟩] none 0
    users := []
    chat := ⟨0, 0⟩ }

def wC5 : World :=
  { sess := { new_game_doc 7 1 2 [⟨"😀", false⟩, ⟨"😀", false⟩] none 0 with
              players := [(7, ⟨1, 10⟩)], score := 10, pairs_found := 1 }
    users := []
    chat := ⟨0, 0⟩ }

def wC5b : World :=
  { sess := { new_game_doc 7 1 2 [⟨"😀", false⟩, ⟨"😀", false⟩] none 0 with
              players := [(7, ⟨1, 10⟩)], score := 10, pairs_found := 1 }
    users := [(7, ⟨2, 5, 50, 4, 0⟩)]
    chat := ⟨1, 2⟩ }

def wC6 : World :=
  { sess := new_game_doc 7 1 2 [⟨"😀", false⟩, ⟨"😀", false⟩] none 0
    users := [(5, ⟨0, 0, 0, 0, 10⟩)]
    chat := ⟨0, 0⟩ }

def wC2 : World :=
  { sess := { new_game_doc 7 1 2 [⟨"😀", false⟩, ⟨"😀", false⟩] none 0 with
              revealed := [0] }
    users := []
    chat := ⟨0, 0⟩ }

def wC7 : World :=
  { sess := { new_game_doc 7 1 3 [⟨"😀", false⟩, ⟨"⬜", false⟩, ⟨"😀", false⟩]
                (some "⬜") 0 with revealed := [0] }
    users := []
    chat := ⟨0, 0⟩ }

def wC8 : World :=
  { sess := new_game_doc 7 1 2 [⟨"😀", false⟩, ⟨"😀", false⟩] none 0
    users := []
    chat := ⟨0, 0⟩ }

def opsC8 : List Ev := [⟨6, .pick 0, 0⟩]

def wC9 : World :=
  { sess := new_game_doc 7 1 2 [⟨"😀", false⟩, ⟨"😀", false⟩] none 0
    users := []
    chat := ⟨0, 0⟩ }

def opsC9 : List Ev := [⟨6, .pick 0, 0⟩, ⟨6, .pick 1, 5⟩]

def wC10 : World :=
  { sess := new_game_doc 7 1 2 [⟨"😀", false⟩, ⟨"😀", false⟩] none 0
    users := []
    chat := ⟨0, 0⟩ }

def opsC10 : List Ev := [⟨5, .pick 0, 0⟩, ⟨6, .pick 1, 5⟩]

/-! ### Association-list lemmas -/

theorem findUser_updUser (us : List (Nat × UserRec)) (uid v : Nat)
    (f : UserRec → UserRec) :
    findUser (updUser us uid f) v =
      if v = uid then (findUser us uid).map f else findUser us v := by
  induction us with
  | nil => simp [findUser, updUser]
  | cons hd tl ih =>
    obtain ⟨k, r⟩ := hd
    by_cases hku : k = uid <;> by_cases hkv : k = v
    · subst hku; subst hkv
      simp [findUser, updUser]
    · subst hku
      have hvk : ¬v = k := fun h => hkv h.symm
      simp [findUser, updUser, hkv, hvk]
    · subst hkv
      have hku2 : ¬k = uid := hku
      simp [findUser, updUser, hku2, fun h : k = uid => hku h]
    · have hvk : ¬v = k := fun h => hkv h.symm
      simp [findUser, updUser, hku, hkv, hvk, ih]

theorem updUser_of_not_found (us : List (Nat × UserRec)) (uid : Nat)
    (f : UserRec → UserRec) (h : findUser us uid = none) :
    updUser us uid f = us := by
  induction us with
  | nil => simp [updUser]
  | cons hd tl ih =>
    obtain ⟨k, r⟩ := hd
    by_cases hk : k = uid
    · simp [findUser, hk] at h
    · simp only [findUser, if_neg hk] at h
      simp [updUser, hk, ih h]

theorem findUser_append (us vs : List (Nat × UserRec)) (v : Nat) :
    findUser (us ++ vs) v =
      match findUser us v with
      | some r => some r
      | none => findUser vs v := by
  induction us with
  | nil => simp [findUser]
  | cons hd tl ih =>
    obtain ⟨k, r⟩ := hd
    by_cases hk : k = v <;> simp [findUser, hk, ih]

theorem findUser_upsertUser (us : List (Nat × UserRec)) (uid v : Nat)
    (f : UserRec → UserRec) :
    findUser (upsertUser us uid f) v =
      if v = uid then some (f ((findUser us uid).getD zeroUser))
      else findUser us v := by
  unfold upsertUser
  cases h : findUser us uid with
  | some r =>
    rw [findUser_updUser]
    by_cases hv : v = uid <;> simp [hv, h]
  | none =>
    rw [findUser_append]
    by_cases hv : v = uid
    · subst hv
      simp [h, findUser]
    · have huv : ¬uid = v := fun hh => hv hh.symm
      cases hfind : findUser us v <;> simp [findUser, hv, huv, hfind]

theorem lookupPlayer_incPlayer (ps : List (Nat × PlayerStats)) (uid v : Nat)
    (dp ds : Nat) :
    lookupPlayer (incPlayer ps uid dp ds) v =
      if v = uid then
        some ⟨((lookupPlayer ps uid).getD ⟨0, 0⟩).pairs_found + dp,
              ((lookupPlayer ps uid).getD ⟨0, 0⟩).score + ds⟩
      else lookupPlayer ps v := by
  induction ps with
  | nil =>
    by_cases hv : v = uid
    · subst hv
      simp [lookupPlayer, incPlayer]
    · have huv : ¬uid = v := fun h => hv h.symm
      simp [lookupPlayer, incPlayer, hv, huv]
  | cons hd tl ih =>
    obtain ⟨k, r⟩ := hd
    by_cases hku : k = uid <;> by_cases hkv : k = v
    · subst hku; subst hkv
      simp [lookupPlayer, incPlayer]
    · subst hku
      have hvk : ¬v = k := fun h => hkv h.symm
      simp [lookupPlayer, incPlayer, hkv, hvk]
    · subst hkv
      simp [lookupPlayer, incPlayer, hku, fun h : k = uid => hku h]
    · have hvk : ¬v = k := fun h => hkv h.symm
      simp [lookupPlayer, incPlayer, hku, hkv, hvk, ih]

theorem fst_mem_incPlayer (ps : List (Nat × PlayerStats)) (uid v dp ds : Nat) :
    v ∈ (incPlayer ps uid dp ds).map Prod.fst ↔
      v ∈ ps.map Prod.fst ∨ v = uid := by
  induction ps with
  | nil => simp [incPlayer]
  | cons hd tl ih =>
    obtain ⟨k, r⟩ := hd
    by_cases hk : k = uid
    · subst hk
      have hrw : incPlayer ((k, r) :: tl) k dp ds =
          (k, ⟨r.pairs_found + dp, r.score + ds⟩) :: tl := by
        simp [incPlayer]
      rw [hrw]
      simp only [List.map_cons, List.mem_cons]
      tauto
    · simp only [incPlayer, if_neg hk, List.map_cons, List.mem_cons, ih]
      tauto

theorem incPlayer_stats_inv (ps : List (Nat × PlayerStats)) (uid : Nat)
    (h : ∀ p ∈ ps, p.2.score = 10 * p.2.pairs_found) :
    ∀ p ∈ incPlayer ps uid 1 10, p.2.score = 10 * p.2.pairs_found := by
  induction ps with
  | nil =>
    intro p hp
    simp only [incPlayer, List.mem_singleton] at hp
    subst hp
    simp
  | cons hd tl ih =>
    obtain ⟨k, r⟩ := hd
    intro p hp
    by_cases hk : k = uid
    · subst hk
      have hrw : incPlayer ((k, r) :: tl) k 1 10 =
          (k, ⟨r.pairs_found + 1, r.score + 10⟩) :: tl := by
        simp [incPlayer]
      rw [hrw] at hp
      simp only [List.mem_cons] at hp
      rcases hp with hp | hp
      · subst hp
        have hr := h (k, r) (List.mem_cons_self _ _)
        simp only at hr ⊢
        omega
      · exact h p (List.mem_cons_of_mem _ hp)
    · simp only [incPlayer, if_neg hk, List.mem_cons] at hp
      rcases hp with hp | hp
      · subst hp
        exact h (k, r) (List.mem_cons_self _ _)
      · exact ih (fun q hq => h q (List.mem_cons_of_mem _ hq)) p hp

/-! ### Grid update lemmas -/

theorem length_setMatched (g : List Tile) (i : Nat) :
    (setMatched g i).length = g.length := by
  simp [setMatched]

theorem getD_setMatched_self (g : List Tile) (i : Nat) (h : i < g.length) :
    (setMatched g i).getD i defaultTile =
      ⟨(g.getD i defaultTile).emoji, true⟩ := by
  simp [setMatched, List.getD_eq_getElem?_getD, List.getElem?_set_eq_of_lt _ h]

theorem getD_setMatched_ne (g : List Tile) (i j : Nat) (h : i ≠ j) :
    (setMatched g i).getD j defaultTile = g.getD j defaultTile := by
  simp [setMatched, List.getD_eq_getElem?_getD, List.getElem?_set_ne h]

/-! ### Finalization lemmas -/

theorem finalize_game_sess (w : World) (now : ℚ) :
    (finalize_game w now).sess =
      { w.sess with is_finished := true, finished_at := some now } := rfl

theorem finalize_game_chat (w : World) (now : ℚ) :
    (finalize_game w now).chat =
      { w.chat with games_played := w.chat.games_played + 1
                    total_activity := w.chat.total_activity + 1 } := rfl

theorem finalize_game_users (w : World) (now : ℚ) :
    (finalize_game w now).users = w.sess.players.foldl bumpFinal w.users := rfl

/-- `maybeFinalize` only ever touches `is_finished`, `finished_at`, the chat
counters and the lifetime user stats: every other session field survives. -/
theorem maybeFinalize_sess (w : World) (now : ℚ) :
    ∃ b ob, (maybeFinalize w now).sess =
      { w.sess with is_finished := b, finished_at := ob } := by
  unfold maybeFinalize
  by_cases h : all_matched w.sess.grid
  · exact ⟨true, some now, by simp [h, finalize_game_sess]⟩
  · exact ⟨w.sess.is_finished, w.sess.finished_at, by simp [h]⟩

theorem updUser_updUser (us : List (Nat × UserRec)) (uid : Nat)
    (f g : UserRec → UserRec) :
    updUser (updUser us uid f) uid g = updUser us uid fun r => g (f r) := by
  induction us with
  | nil => rfl
  | cons hd tl ih =>
    obtain ⟨k, r⟩ := hd
    by_cases hk : k = uid
    · simp [updUser, hk]
    · simp [updUser, hk, ih]

theorem bumpFinal_of_none (us : List (Nat × UserRec)) (u : Nat)
    (p : PlayerStats) (h : findUser us u = none) :
    bumpFinal us (u, p) = us := by
  have h0 : updUser us u (fun x => { x with games_played := x.games_played + 1 }) = us :=
    updUser_of_not_found _ _ _ h
  unfold bumpFinal
  simp only [h0, h]

theorem bumpFinal_of_some (us : List (Nat × UserRec)) (u : Nat)
    (p : PlayerStats) (r : UserRec) (h : findUser us u = some r) :
    bumpFinal us (u, p) =
      if p.score ≠ 0 ∧ r.best_score < p.score then
        updUser us u fun x =>
          { x with games_played := x.games_played + 1, best_score := p.score }
      else
        updUser us u fun x => { x with games_played := x.games_played + 1 } := by
  have h1 : findUser (updUser us u fun x => { x with games_played := x.games_played + 1 }) u
      = some { r with games_played := r.games_played + 1 } := by
    rw [findUser_updUser, if_pos rfl, h]
    rfl
  unfold bumpFinal
  simp only [h1]
  by_cases hc : p.score ≠ 0 ∧ r.best_score < p.score
  · rw [if_pos hc, if_pos hc, updUser_updUser]
  · rw [if_neg hc, if_neg hc]

theorem bumpFinal_ne (us : List (Nat × UserRec)) (u : Nat) (p : PlayerStats)
    (v : Nat) (h : v ≠ u) :
    findUser (bumpFinal us (u, p)) v = findUser us v := by
  cases hf : findUser us u with
  | none => rw [bumpFinal_of_none us u p hf]
  | some r =>
    rw [bumpFinal_of_some us u p r hf]
    by_cases hc : p.score ≠ 0 ∧ r.best_score < p.score
    · rw [if_pos hc, findUser_updUser, if_neg h]
    · rw [if_neg hc, findUser_updUser, if_neg h]

theorem bumpFinal_self (us : List (Nat × UserRec)) (u : Nat) (p : PlayerStats) :
    findUser (bumpFinal us (u, p)) u =
      (findUser us u).map fun r =>
        { r with games_played := r.games_played + 1
                 best_score := max r.best_score p.score } := by
  cases hf : findUser us u with
  | none => rw [bumpFinal_of_none us u p hf, hf]; rfl
  | some r =>
    rw [bumpFinal_of_some us u p r hf]
    by_cases hc : p.score ≠ 0 ∧ r.best_score < p.score
    · rw [if_pos hc, findUser_updUser, if_pos rfl, hf]
      have hmax : max r.best_score p.score = p.score := by
        have := hc.2
        omega
      simp [hmax]
    · rw [if_neg hc, findUser_updUser, if_pos rfl, hf]
      have hmax : max r.best_score p.score = r.best_score := by
        by_cases h0 : p.score = 0
        · omega
        · have hlt : ¬r.best_score < p.score := fun hl => hc ⟨h0, hl⟩
          omega
      simp [hmax]

theorem foldl_bumpFinal_not_mem (ps : List (Nat × PlayerStats))
    (us : List (Nat × UserRec)) (v : Nat) (h : v ∉ ps.map Prod.fst) :
    findUser (ps.foldl bumpFinal us) v = findUser us v := by
  induction ps generalizing us with
  | nil => rfl
  | cons hd tl ih =>
    obtain ⟨k, q⟩ := hd
    simp only [List.map_cons, List.mem_cons] at h
    push_neg at h
    simp only [List.foldl_cons]
    rw [ih _ h.2, bumpFinal_ne _ _ _ _ h.1]

/-! ### Field-preservation lemmas -/

theorem findUser_map_updUser {α : Type} (h : UserRec → α)
    (us : List (Nat × UserRec)) (uid v : Nat) (f : UserRec → UserRec)
    (hf : ∀ r, h (f r) = h r) :
    (findUser (updUser us uid f) v).map h = (findUser us v).map h := by
  rw [findUser_updUser]
  by_cases hv : v = uid
  · subst hv
    rw [if_pos rfl]
    cases findUser us v <;> simp [hf]
  · rw [if_neg hv]

theorem findUser_map_bumpFinal {α : Type} (h : UserRec → α)
    (us : List (Nat × UserRec)) (u : Nat) (p : PlayerStats) (v : Nat)
    (hgp : ∀ r : UserRec, h { r with games_played := r.games_played + 1 } = h r)
    (hbs : ∀ (r : UserRec) (s : Nat), h { r with best_score := s } = h r) :
    (findUser (bumpFinal us (u, p)) v).map h = (findUser us v).map h := by
  cases hf : findUser us u with
  | none => rw [bumpFinal_of_none us u p hf]
  | some r =>
    rw [bumpFinal_of_some us u p r hf]
    by_cases hc : p.score ≠ 0 ∧ r.best_score < p.score
    · rw [if_pos hc]
      refine findUser_map_updUser h us u v _ fun x => ?_
      have hsplit : ({ x with games_played := x.games_played + 1
                              best_score := p.score } : UserRec)
          = { ({ x with games_played := x.games_played + 1 } : UserRec) with
              best_score := p.score } := rfl
      rw [hsplit, hbs, hgp]
    · rw [if_neg hc]
      exact findUser_map_updUser h us u v _ hgp

theorem findUser_map_foldl_bumpFinal {α : Type} (h : UserRec → α)
    (ps : List (Nat × PlayerStats)) (us : List (Nat × UserRec)) (v : Nat)
    (hgp : ∀ r : UserRec, h { r with games_played := r.games_played + 1 } = h r)
    (hbs : ∀ (r : UserRec) (s : Nat), h { r with best_score := s } = h r) :
    (findUser (ps.foldl bumpFinal us) v).map h = (findUser us v).map h := by
  induction ps generalizing us with
  | nil => rfl
  | cons hd tl ih =>
    obtain ⟨k, q⟩ := hd
    simp only [List.foldl_cons]
    rw [ih, findUser_map_bumpFinal h us k q v hgp hbs]

theorem maybeFinalize_users_map {α : Type} (h : UserRec → α)
    (w : World) (now : ℚ) (v : Nat)
    (hgp : ∀ r : UserRec, h { r with games_played := r.games_played + 1 } = h r)
    (hbs : ∀ (r : UserRec) (s : Nat), h { r with best_score := s } = h r) :
    (findUser (maybeFinalize w now).users v).map h = (findUser w.users v).map h := by
  unfold maybeFinalize
  by_cases ha : all_matched w.sess.grid
  · rw [if_pos ha, finalize_game_users]
    exact findUser_map_foldl_bumpFinal h _ _ _ hgp hbs
  · rw [if_neg ha]

theorem maybeFinalize_of_not_all (w : World) (now : ℚ)
    (h : all_matched w.sess.grid = false) : maybeFinalize w now = w := by
  unfold maybeFinalize
  rw [h]
  rfl

theorem maybeFinalize_revealed (w : World) (now : ℚ) :
    (maybeFinalize w now).sess.revealed = w.sess.revealed := by
  obtain ⟨b, ob, h⟩ := maybeFinalize_sess w now
  rw [h]

theorem maybeFinalize_score (w : World) (now : ℚ) :
    (maybeFinalize w now).sess.score = w.sess.score := by
  obtain ⟨b, ob, h⟩ := maybeFinalize_sess w now
  rw [h]

theorem maybeFinalize_pairs (w : World) (now : ℚ) :
    (maybeFinalize w now).sess.pairs_found = w.sess.pairs_found := by
  obtain ⟨b, ob, h⟩ := maybeFinalize_sess w now
  rw [h]

theorem maybeFinalize_players (w : World) (now : ℚ) :
    (maybeFinalize w now).sess.players = w.sess.players := by
  obtain ⟨b, ob, h⟩ := maybeFinalize_sess w now
  rw [h]

theorem maybeFinalize_grid (w : World) (now : ℚ) :
    (maybeFinalize w now).sess.grid = w.sess.grid := by
  obtain ⟨b, ob, h⟩ := maybeFinalize_sess w now
  rw [h]

theorem maybeFinalize_is_finished_mono (w : World) (now : ℚ)
    (h : w.sess.is_finished = true) :
    (maybeFinalize w now).sess.is_finished = true := by
  unfold maybeFinalize
  by_cases ha : all_matched w.sess.grid
  · rw [if_pos ha, finalize_game_sess]
  · rw [if_neg ha]
    exact h


/-! ### Branch characterizations of `handle_pick` -/

theorem handle_pick_err (w : World) (uid : Nat) (i : Int) (now : ℚ)
    (h : pickErr w.sess i = true) :
    (handle_pick w uid i now).1 = w ∧ isErr (handle_pick w uid i now).2 = true := by
  unfold handle_pick
  unfold pickErr at h
  simp only [Bool.or_eq_true, decide_eq_true_eq] at h
  rcases h with ((h1 | h2) | h3) | h4
  · rw [if_pos (Or.inl h1)]
    exact ⟨rfl, rfl⟩
  · rw [if_pos (Or.inr h2)]
    exact ⟨rfl, rfl⟩
  · by_cases hv : i < 0 ∨ ((w.sess.rows * w.sess.cols : Nat) : Int) ≤ i
    · rw [if_pos hv]; exact ⟨rfl, rfl⟩
    · rw [if_neg hv, if_pos h3]
      exact ⟨rfl, rfl⟩
  · by_cases hv : i < 0 ∨ ((w.sess.rows * w.sess.cols : Nat) : Int) ≤ i
    · rw [if_pos hv]; exact ⟨rfl, rfl⟩
    · rw [if_neg hv]
      by_cases hm : (w.sess.grid.getD i.toNat defaultTile).matched
      · rw [if_pos hm]; exact ⟨rfl, rfl⟩
      · rw [if_neg hm, if_pos h4]
        exact ⟨rfl, rfl⟩

theorem handle_pick_single (w : World) (uid : Nat) (i : Int) (now : ℚ)
    (hrev : w.sess.revealed = [])
    (herr : pickErr w.sess i = false) :
    handle_pick w uid i now =
      ({ w with sess := { w.sess with revealed := [i.toNat] } },
       .singleReveal ((w.sess.grid.getD i.toNat defaultTile).emoji)) := by
  unfold handle_pick
  unfold pickErr at herr
  simp only [Bool.or_eq_false_iff, decide_eq_false_iff_not] at herr
  obtain ⟨⟨⟨h1, h2⟩, h3⟩, h4⟩ := herr
  rw [if_neg (not_or.mpr ⟨h1, h2⟩), if_neg (by simpa using h3), if_neg h4]
  rw [hrev]
  simp only [List.nil_append, List.length_cons, List.length_nil]
  rw [if_neg (by omega : ¬(0 + 1 = 2))]

theorem handle_pick_match (w : World) (uid : Nat) (i1 : Nat) (i : Int) (now : ℚ)
    (hrev : w.sess.revealed = [i1])
    (herr : pickErr w.sess i = false)
    (heq : (w.sess.grid.getD i1 defaultTile).emoji
         = (w.sess.grid.getD i.toNat defaultTile).emoji) :
    handle_pick w uid i now =
      (maybeFinalize
        { w with
          sess := { w.sess with
            grid := setMatched (setMatched w.sess.grid i1) i.toNat
            pairs_found := w.sess.pairs_found + 1
            score := w.sess.score + 10
            players := incPlayer w.sess.players uid 1 10
            revealed := [] }
          users := updUser w.users uid fun r =>
            { r with pairs_found := r.pairs_found + 1
                     total_points := r.total_points + 10 } } now,
       .matchFound) := by
  unfold handle_pick
  unfold pickErr at herr
  simp only [Bool.or_eq_false_iff, decide_eq_false_iff_not] at herr
  obtain ⟨⟨⟨h1, h2⟩, h3⟩, h4⟩ := herr
  rw [if_neg (not_or.mpr ⟨h1, h2⟩), if_neg (by simpa using h3), if_neg h4]
  rw [hrev]
  simp only [List.cons_append, List.nil_append, List.length_cons, List.length_nil,
    if_true, List.getD_cons_zero, List.getD_cons_succ]
  rw [if_pos heq]

theorem handle_pick_filler (w : World) (uid : Nat) (i1 : Nat) (i : Int) (now : ℚ)
    (f : String)
    (hrev : w.sess.revealed = [i1])
    (herr : pickErr w.sess i = false)
    (hne : (w.sess.grid.getD i1 defaultTile).emoji
         ≠ (w.sess.grid.getD i.toNat defaultTile).emoji)
    (hfil : w.sess.filler = some f)
    (hhit : (w.sess.grid.getD i1 defaultTile).emoji = f
          ∨ (w.sess.grid.getD i.toNat defaultTile).emoji = f) :
    handle_pick w uid i now =
      (maybeFinalize
        { w with
          sess := { w.sess with
            grid :=
              (if (w.sess.grid.getD i.toNat defaultTile).emoji = f then
                setMatched
                  (if (w.sess.grid.getD i1 defaultTile).emoji = f then
                    setMatched w.sess.grid i1
                  else w.sess.grid) i.toNat
              else
                if (w.sess.grid.getD i1 defaultTile).emoji = f then
                  setMatched w.sess.grid i1
                else w.sess.grid)
            revealed := [] } } now,
       .fillerFound) := by
  unfold handle_pick
  unfold pickErr at herr
  simp only [Bool.or_eq_false_iff, decide_eq_false_iff_not] at herr
  obtain ⟨⟨⟨h1, h2⟩, h3⟩, h4⟩ := herr
  rw [if_neg (not_or.mpr ⟨h1, h2⟩), if_neg (by simpa using h3), if_neg h4]
  rw [hrev]
  simp only [List.cons_append, List.nil_append, List.length_cons, List.length_nil,
    if_true, List.getD_cons_zero, List.getD_cons_succ]
  rw [if_neg hne, hfil]
  simp only []
  rw [if_pos hhit]

theorem handle_pick_mismatch (w : World) (uid : Nat) (i1 : Nat) (i : Int) (now : ℚ)
    (hrev : w.sess.revealed = [i1])
    (herr : pickErr w.sess i = false)
    (hne : (w.sess.grid.getD i1 defaultTile).emoji
         ≠ (w.sess.grid.getD i.toNat defaultTile).emoji)
    (hfil : w.sess.filler = none
          ∨ ∃ f, w.sess.filler = some f
              ∧ (w.sess.grid.getD i1 defaultTile).emoji ≠ f
              ∧ (w.sess.grid.getD i.toNat defaultTile).emoji ≠ f) :
    handle_pick w uid i now =
      (maybeFinalize { w with sess := { w.sess with revealed := [] } } now,
       .noMatch) := by
  unfold handle_pick
  unfold pickErr at herr
  simp only [Bool.or_eq_false_iff, decide_eq_false_iff_not] at herr
  obtain ⟨⟨⟨h1, h2⟩, h3⟩, h4⟩ := herr
  rw [if_neg (not_or.mpr ⟨h1, h2⟩), if_neg (by simpa using h3), if_neg h4]
  rw [hrev]
  simp only [List.cons_append, List.nil_append, List.length_cons, List.length_nil,
    if_true, List.getD_cons_zero, List.getD_cons_succ]
  rw [if_neg hne]
  rcases hfil with hf | ⟨f, hf, hn1, hn2⟩
  · rw [hf]
  · rw [hf]
    simp only []
    rw [if_neg (not_or.mpr ⟨hn1, hn2⟩)]

/-! ### `cb_game_actions` characterizations -/

theorem cb_rate_limited (w : World) (uid : Nat) (act : Action) (now : ℚ)
    (h : now < cooldownOf w uid) :
    cb_game_actions w uid act now = (w, .rateLimited) := by
  unfold cb_game_actions
  rw [if_pos h]

theorem cb_pick (w : World) (uid : Nat) (i : Int) (now : ℚ)
    (h : ¬now < cooldownOf w uid) :
    cb_game_actions w uid (.pick i) now =
      ((handle_pick (armCooldown w uid now) uid i now).1,
       .pickRes (handle_pick (armCooldown w uid now) uid i now).2) := by
  unfold cb_game_actions
  rw [if_neg h]

theorem cb_end (w : World) (uid : Nat) (now : ℚ)
    (h : ¬now < cooldownOf w uid) :
    cb_game_actions w uid .endGame now =
      (finalize_game (armCooldown w uid now) now, .ended) := by
  unfold cb_game_actions
  rw [if_neg h]
  rfl

theorem armCooldown_sess (w : World) (uid : Nat) (now : ℚ) :
    (armCooldown w uid now).sess = w.sess := rfl

theorem armCooldown_chat (w : World) (uid : Nat) (now : ℚ) :
    (armCooldown w uid now).chat = w.chat := rfl

theorem findUser_armCooldown (w : World) (uid v : Nat) (now : ℚ) :
    findUser (armCooldown w uid now).users v =
      if v = uid then
        some { (findUser w.users uid).getD zeroUser with
               cooldown_until := now + COOLDOWN_SECONDS }
      else findUser w.users v := by
  unfold armCooldown
  simp only []
  rw [findUser_upsertUser]

end EmojiPair

namespace EmojiPair

theorem Inv9_maybeFinalize (w : World) (now : ℚ) (h : Inv9 w.sess) :
    Inv9 (maybeFinalize w now).sess := by
  obtain ⟨b, ob, hs⟩ := maybeFinalize_sess w now
  rw [hs]
  exact h

theorem handle_pick_inv9 (w : World) (uid : Nat) (i : Int) (now : ℚ)
    (h : Inv9 w.sess) : Inv9 (handle_pick w uid i now).1.sess := by
  obtain ⟨h1, h2⟩ := h
  unfold handle_pick
  simp only []
  split
  · exact ⟨h1, h2⟩
  split
  · exact ⟨h1, h2⟩
  split
  · exact ⟨h1, h2⟩
  split
  · split
    · apply Inv9_maybeFinalize
      refine ⟨?_, ?_⟩
      · simp only []
        omega
      · simp only []
        exact incPlayer_stats_inv _ _ h2
    · split
      · split
        · exact Inv9_maybeFinalize _ _ ⟨h1, h2⟩
        · exact Inv9_maybeFinalize _ _ ⟨h1, h2⟩
      · exact Inv9_maybeFinalize _ _ ⟨h1, h2⟩
  · exact ⟨h1, h2⟩

theorem cb_inv9 (w : World) (uid : Nat) (act : Action) (now : ℚ)
    (h : Inv9 w.sess) : Inv9 (cb_game_actions w uid act now).1.sess := by
  unfold cb_game_actions
  split
  · exact h
  split
  · exact handle_pick_inv9 _ _ _ _ h
  · exact ⟨h.1, h.2⟩

theorem run_inv9 (w : World) (ops : List Ev) (h : Inv9 w.sess) :
    Inv9 (run w ops).sess := by
  induction ops generalizing w with
  | nil => exact h
  | cons e rest ih => exact ih _ (cb_inv9 _ _ _ _ h)

end EmojiPair

namespace EmojiPair

theorem handle_pick_inv8 (w : World) (uid : Nat) (i : Int) (now : ℚ)
    (h : w.sess.revealed.length ≤ 1) :
    (handle_pick w uid i now).1.sess.revealed.length ≤ 1 := by
  by_cases herr : pickErr w.sess i = true
  · rw [(handle_pick_err w uid i now herr).1]
    exact h
  · have herr2 : pickErr w.sess i = false := by
      simpa using herr
    cases hrev : w.sess.revealed with
    | nil =>
      rw [handle_pick_single w uid i now hrev herr2]
      simp
    | cons a tl =>
      cases tl with
      | nil =>
        by_cases heq : (w.sess.grid.getD a defaultTile).emoji
            = (w.sess.grid.getD i.toNat defaultTile).emoji
        · rw [handle_pick_match w uid a i now hrev herr2 heq]
          simp only [maybeFinalize_revealed]
          simp
        · cases hfil : w.sess.filler with
          | none =>
            rw [handle_pick_mismatch w uid a i now hrev herr2 heq (Or.inl hfil)]
            simp only [maybeFinalize_revealed]
            simp
          | some f =>
            by_cases hhit : (w.sess.grid.getD a defaultTile).emoji = f
                ∨ (w.sess.grid.getD i.toNat defaultTile).emoji = f
            · rw [handle_pick_filler w uid a i now f hrev herr2 heq hfil hhit]
              simp only [maybeFinalize_revealed]
              simp
            · push_neg at hhit
              rw [handle_pick_mismatch w uid a i now hrev herr2 heq
                    (Or.inr ⟨f, hfil, hhit.1, hhit.2⟩)]
              simp only [maybeFinalize_revealed]
              simp
      | cons b tl2 =>
        rw [hrev] at h
        simp at h

theorem cb_inv8 (w : World) (uid : Nat) (act : Action) (now : ℚ)
    (h : w.sess.revealed.length ≤ 1) :
    (cb_game_actions w uid act now).1.sess.revealed.length ≤ 1 := by
  unfold cb_game_actions
  split
  · exact h
  split
  · exact handle_pick_inv8 _ _ _ _ h
  · exact h

theorem run_inv8 (w : World) (ops : List Ev) (h : w.sess.revealed.length ≤ 1) :
    (run w ops).sess.revealed.length ≤ 1 := by
  induction ops generalizing w with
  | nil => exact h
  | cons e rest ih => exact ih _ (cb_inv8 _ _ _ _ h)

theorem handle_pick_cooldown (w : World) (uid : Nat) (i : Int) (now : ℚ) (v : Nat) :
    (findUser (handle_pick w uid i now).1.users v).map UserRec.cooldown_until
      = (findUser w.users v).map UserRec.cooldown_until := by
  have hgp : ∀ r : UserRec,
      ({ r with games_played := r.games_played + 1 } : UserRec).cooldown_until
        = r.cooldown_until := fun _ => rfl
  have hbs : ∀ (r : UserRec) (s : Nat),
      ({ r with best_score := s } : UserRec).cooldown_until = r.cooldown_until :=
    fun _ _ => rfl
  unfold handle_pick
  simp only []
  split
  · rfl
  split
  · rfl
  split
  · rfl
  split
  · split
    · rw [maybeFinalize_users_map UserRec.cooldown_until _ now v hgp hbs]
      exact findUser_map_updUser _ _ _ _ _ fun r => rfl
    · split
      · split
        · rw [maybeFinalize_users_map UserRec.cooldown_until _ now v hgp hbs]
        · rw [maybeFinalize_users_map UserRec.cooldown_until _ now v hgp hbs]
      · rw [maybeFinalize_users_map UserRec.cooldown_until _ now v hgp hbs]
  · rfl

theorem handle_pick_finished_mono (w : World) (uid : Nat) (i : Int) (now : ℚ)
    (h : w.sess.is_finished = true) :
    (handle_pick w uid i now).1.sess.is_finished = true := by
  unfold handle_pick
  simp only []
  split
  · exact h
  split
  · exact h
  split
  · exact h
  split
  · split
    · exact maybeFinalize_is_finished_mono _ _ h
    · split
      · split
        · exact maybeFinalize_is_finished_mono _ _ h
        · exact maybeFinalize_is_finished_mono _ _ h
      · exact maybeFinalize_is_finished_mono _ _ h
  · exact h

theorem cb_finished_mono (w : World) (uid : Nat) (act : Action) (now : ℚ)
    (h : w.sess.is_finished = true) :
    (cb_game_actions w uid act now).1.sess.is_finished = true := by
  unfold cb_game_actions
  split
  · exact h
  split
  · exact handle_pick_finished_mono _ _ _ _ h
  · rfl

end EmojiPair

namespace EmojiPair

theorem handle_pick_players_keys (w : World) (uid : Nat) (i : Int) (now : ℚ) (v : Nat) :
    (v ∈ ((handle_pick w uid i now).1.sess.players.map Prod.fst)) ↔
      (v ∈ w.sess.players.map Prod.fst ∨
       ((handle_pick w uid i now).2 = .matchFound ∧ v = uid)) := by
  unfold handle_pick
  simp only []
  split
  · simp
  split
  · simp
  split
  · simp
  split
  · split
    · simp only [maybeFinalize_players]
      rw [fst_mem_incPlayer]
      simp
    · split
      · split
        · simp [maybeFinalize_players]
        · simp [maybeFinalize_players]
      · simp [maybeFinalize_players]
  · simp

theorem cb_players_keys (w : World) (uid : Nat) (act : Action) (now : ℚ) (v : Nat) :
    (v ∈ ((cb_game_actions w uid act now).1.sess.players.map Prod.fst)) ↔
      (v ∈ w.sess.players.map Prod.fst ∨
       ((cb_game_actions w uid act now).2 = .pickRes .matchFound ∧ v = uid)) := by
  unfold cb_game_actions
  split
  · simp
  split
  · rename_i i
    have hh := handle_pick_players_keys (armCooldown w uid now) uid i now v
    rw [armCooldown_sess] at hh
    simp only []
    rw [hh]
    constructor
    · rintro (h | ⟨h1, h2⟩)
      · exact Or.inl h
      · exact Or.inr ⟨by simp [h1], h2⟩
    · rintro (h | ⟨h1, h2⟩)
      · exact Or.inl h
      · refine Or.inr ⟨?_, h2⟩
        simpa using h1
  · have hp : (handle_end_game (armCooldown w uid now) now).sess.players
        = w.sess.players := by
      show (finalize_game (armCooldown w uid now) now).sess.players = _
      rw [finalize_game_sess]
      rfl
    simp [hp]

theorem run_players_keys (w : World) (ops : List Ev) (v : Nat) :
    v ∈ (run w ops).sess.players.map Prod.fst ↔
      (v ∈ w.sess.players.map Prod.fst ∨ v ∈ matchersOf w ops) := by
  induction ops generalizing w with
  | nil => simp [run, matchersOf]
  | cons e rest ih =>
    show v ∈ (run (cb_game_actions w e.uid e.act e.now).1 rest).sess.players.map Prod.fst ↔ _
    have hm : matchersOf w (e :: rest) =
        (if (cb_game_actions w e.uid e.act e.now).2 = .pickRes .matchFound
         then [e.uid] else [])
          ++ matchersOf (cb_game_actions w e.uid e.act e.now).1 rest := rfl
    rw [ih, cb_players_keys, hm, List.mem_append]
    by_cases hres : (cb_game_actions w e.uid e.act e.now).2 = .pickRes .matchFound
    · rw [if_pos hres]
      simp only [List.mem_singleton]
      constructor
      · rintro ((h | ⟨h1, h2⟩) | h) <;> tauto
      · rintro (h | (h | h))
        · tauto
        · exact Or.inl (Or.inr ⟨hres, h⟩)
        · tauto
    · rw [if_neg hres]
      simp only [List.not_mem_nil, false_or]
      constructor
      · rintro ((h | ⟨h1, h2⟩) | h)
        · tauto
        · exact absurd h1 hres
        · tauto
      · rintro (h | h) <;> tauto


/-! ### Finalization characterization -/

theorem foldl_bumpFinal_none (ps : List (Nat × PlayerStats))
    (us : List (Nat × UserRec)) (u : Nat) (h : findUser us u = none) :
    findUser (ps.foldl bumpFinal us) u = none := by
  induction ps generalizing us with
  | nil => exact h
  | cons hd tl ih =>
    obtain ⟨k, q⟩ := hd
    simp only [List.foldl_cons]
    apply ih
    by_cases hk : u = k
    · subst hk
      rw [bumpFinal_self, h]
      rfl
    · rw [bumpFinal_ne _ _ _ _ hk]
      exact h

theorem foldl_bumpFinal_mem (ps : List (Nat × PlayerStats))
    (us : List (Nat × UserRec)) (u : Nat) (p : PlayerStats) (r : UserRec)
    (hnd : (ps.map Prod.fst).Nodup)
    (hl : lookupPlayer ps u = some p)
    (hr : findUser us u = some r) :
    findUser (ps.foldl bumpFinal us) u
      = some { r with games_played := r.games_played + 1
                      best_score := max r.best_score p.score } := by
  induction ps generalizing us with
  | nil => cases hl
  | cons hd tl ih =>
    obtain ⟨k, q⟩ := hd
    simp only [List.map_cons, List.nodup_cons] at hnd
    simp only [List.foldl_cons]
    by_cases hk : k = u
    · have hq : q = p := by
        unfold lookupPlayer at hl
        rw [if_pos hk] at hl
        exact Option.some_inj.mp hl
      subst hq
      have hnotin : u ∉ tl.map Prod.fst := hk ▸ hnd.1
      rw [foldl_bumpFinal_not_mem tl _ u hnotin, hk, bumpFinal_self, hr]
      rfl
    · have hl2 : lookupPlayer tl u = some p := by
        unfold lookupPlayer at hl
        rw [if_neg hk] at hl
        exact hl
      refine ih _ hnd.2 hl2 ?_
      rw [bumpFinal_ne _ _ _ _ fun h => hk h.symm]
      exact hr

/-! ### Grid-generation helper lemmas -/

theorem flatMap_pair_length (l : List String) :
    (l.flatMap fun e => [e, e]).length = 2 * l.length := by
  induction l with
  | nil => rfl
  | cons a tl ih =>
    simp only [List.flatMap_cons, List.length_append, ih, List.length_cons,
      List.length_nil]
    omega

theorem flatMap_pair_count (l : List String) (e : String) :
    (l.flatMap fun x => [x, x]).count e = 2 * l.count e := by
  induction l with
  | nil => rfl
  | cons a tl ih =>
    simp only [List.flatMap_cons, List.count_append, ih, List.count_cons,
      List.count_nil]
    by_cases h : a = e
    · subst h
      simp
      omega
    · simp [h]

theorem mem_flatMap_pair (l : List String) (e : String) :
    e ∈ (l.flatMap fun x => [x, x]) ↔ e ∈ l := by
  induction l with
  | nil => simp
  | cons a tl ih =>
    simp only [List.flatMap_cons, List.mem_append, List.mem_cons, ih]
    constructor
    · rintro (h | h)
      · simp at h
        exact Or.inl h
      · exact Or.inr h
    · rintro (h | h)
      · subst h
        simp
      · exact Or.inr h

theorem range_map_getD {α : Type} (l : List α) (d : α) :
    (List.range l.length).map (fun i => l.getD i d) = l := by
  apply List.ext_getElem
  · simp
  · intro i h1 h2
    simp only [List.getElem_map, List.getElem_range]
    rw [List.getD_eq_getElem?_getD, List.getElem?_eq_getElem h2]
    rfl

theorem filler_not_in_pool : FILLER ∉ EMOJI_POOL := by decide

/-! ### Error-condition lemmas -/

theorem pickErr_of_all_matched (s : Session) (i : Int)
    (hlen : s.grid.length = s.rows * s.cols)
    (hall : all_matched s.grid = true) : pickErr s i = true := by
  unfold pickErr
  simp only [Bool.or_eq_true, decide_eq_true_eq]
  by_cases h1 : i < 0
  · exact Or.inl (Or.inl (Or.inl h1))
  · by_cases h2 : ((s.rows * s.cols : Nat) : Int) ≤ i
    · exact Or.inl (Or.inl (Or.inr h2))
    · have hi : i.toNat < s.grid.length := by
        rw [hlen]
        omega
      have hm : (s.grid.getD i.toNat defaultTile).matched = true := by
        rw [List.getD_eq_getElem?_getD, List.getElem?_eq_getElem hi]
        simp only [Option.getD_some]
        unfold all_matched at hall
        exact (List.all_eq_true.mp hall) _ (List.getElem_mem hi)
      exact Or.inl (Or.inr hm)

theorem handle_pick_second_shape (w : World) (uid : Nat) (i1 : Nat) (i : Int)
    (now : ℚ) (hrev : w.sess.revealed = [i1]) (herr : pickErr w.sess i = false) :
    isResolution (handle_pick w uid i now).2 = true
    ∧ (handle_pick w uid i now).1.sess.revealed = [] := by
  by_cases heq : (w.sess.grid.getD i1 defaultTile).emoji
      = (w.sess.grid.getD i.toNat defaultTile).emoji
  · rw [handle_pick_match w uid i1 i now hrev herr heq]
    refine ⟨rfl, ?_⟩
    rw [maybeFinalize_revealed]
  · cases hfil : w.sess.filler with
    | none =>
      rw [handle_pick_mismatch w uid i1 i now hrev herr heq (Or.inl hfil)]
      refine ⟨rfl, ?_⟩
      rw [maybeFinalize_revealed]
    | some f =>
      by_cases hhit : (w.sess.grid.getD i1 defaultTile).emoji = f
          ∨ (w.sess.grid.getD i.toNat defaultTile).emoji = f
      · rw [handle_pick_filler w uid i1 i now f hrev herr heq hfil hhit]
        refine ⟨rfl, ?_⟩
        rw [maybeFinalize_revealed]
      · push_neg at hhit
        rw [handle_pick_mismatch w uid i1 i now hrev herr heq
              (Or.inr ⟨f, hfil, hhit.1, hhit.2⟩)]
        refine ⟨rfl, ?_⟩
        rw [maybeFinalize_revealed]

end EmojiPair

namespace EmojiPair

/-- C3 (counterexample): at `rows = 9`, `cols = 10` (both ≥ 1) grid
generation cannot return a grid at all: `random.sample` must draw 45
distinct symbols from the 40-symbol pool, which is impossible, so no
execution of `generate_game_grid 9 10` produces tiles. -/
theorem C3_counterexample :
    ¬∃ choice shuffle grid filler,
        generate_game_grid 9 10 choice shuffle = some (grid, filler) := by
  rintro ⟨c, s, g, f, h⟩
  unfold generate_game_grid at h
  by_cases hs : Sampled EMOJI_POOL (9 * 10 / 2) c
  · obtain ⟨hlen, hnd, hsub⟩ := hs
    have h1 : c.toFinset.card = c.length := List.toFinset_card_of_nodup hnd
    have h2 : c.toFinset ⊆ EMOJI_POOL.toFinset := by
      intro x hx
      rw [List.mem_toFinset] at hx ⊢
      exact hsub x hx
    have h3 := Finset.card_le_card h2
    have h4 := List.toFinset_card_le EMOJI_POOL
    have h5 : EMOJI_POOL.length = 40 := by decide
    have h6 : c.length = 45 := by
      norm_num at hlen
      exact hlen
    omega
  · rw [if_neg hs] at h
    cases h

end EmojiPair

namespace EmojiPair

theorem count_of_nodup (l : List String) (e : String) (h : l.Nodup) :
    l.count e = if e ∈ l then 1 else 0 := by
  by_cases hm : e ∈ l
  · rw [if_pos hm]
    exact List.count_eq_one_of_mem h hm
  · rw [if_neg hm]
    exact List.count_eq_zero_of_not_mem hm

/-- C3 (amended): whenever a without-replacement sample of
`⌊rows*cols/2⌋` symbols from the 40-symbol pool exists (i.e. rows*cols ≤ 81;
the original claim's "for all rows, cols ≥ 1" fails beyond that), generation
returns exactly `rows*cols` tiles, every sampled symbol appears exactly
twice, all symbols come from the pool or are the filler sentinel, the filler
tile exists iff `rows*cols` is odd (then exactly once), and the returned
filler marker is the sentinel exactly in the odd case. -/
theorem C3_amended (rows cols : Nat) (choice : List String)
    (shuffle : List String → List String)
    (hr : 1 ≤ rows) (hc : 1 ≤ cols)
    (hs : Sampled EMOJI_POOL (rows * cols / 2) choice)
    (hsh : ShuffleOK shuffle) :
    ∃ grid filler,
      generate_game_grid rows cols choice shuffle = some (grid, filler)
      ∧ grid.length = rows * cols
      ∧ (∀ e, e ≠ FILLER →
          (grid.map Tile.emoji).count e = if e ∈ choice then 2 else 0)
      ∧ (∀ e ∈ grid.map Tile.emoji, e ∈ EMOJI_POOL ∨ e = FILLER)
      ∧ (grid.map Tile.emoji).count FILLER = (if Odd (rows * cols) then 1 else 0)
      ∧ filler = (if Odd (rows * cols) then some FILLER else none)
      ∧ ∀ t ∈ grid, t.matched = false := by
  obtain ⟨hlen, hnd, hsub⟩ := hs
  have hfe : FILLER ∉ choice := fun hmem => filler_not_in_pool (hsub _ hmem)
  have hgen : generate_game_grid rows cols choice shuffle =
      some ((List.range (rows * cols)).map fun i =>
              ⟨(shuffle (if rows * cols % 2 = 1
                         then (choice.flatMap fun e => [e, e]) ++ [FILLER]
                         else choice.flatMap fun e => [e, e])).getD i "", false⟩,
            if rows * cols % 2 = 1 then some FILLER else none) := by
    unfold generate_game_grid
    rw [if_pos ⟨hlen, hnd, hsub⟩]
    simp only []
    by_cases hodd : rows * cols % 2 = 1
    · simp [hodd]
    · simp [hodd]
  set deck0 : List String := choice.flatMap fun e => [e, e] with hdeck0
  set fd2 : List String :=
    if rows * cols % 2 = 1 then deck0 ++ [FILLER] else deck0 with hfd2
  have hperm : List.Perm (shuffle fd2) fd2 := hsh fd2
  have hd0len : deck0.length = 2 * (rows * cols / 2) := by
    rw [hdeck0, flatMap_pair_length, hlen]
  have hfd2len : fd2.length = rows * cols := by
    rw [hfd2]
    by_cases hodd : rows * cols % 2 = 1
    · rw [if_pos hodd]
      simp only [List.length_append, List.length_cons, List.length_nil, hd0len]
      omega
    · rw [if_neg hodd]
      rw [hd0len]
      omega
  have hdlen : (shuffle fd2).length = rows * cols := by
    rw [hperm.length_eq, hfd2len]
  refine ⟨_, _, hgen, ?_, ?_, ?_, ?_, ?_, ?_⟩
  · simp
  · -- counts of non-filler symbols
    intro e he
    have hmap : ((List.range (rows * cols)).map fun i =>
        (⟨(shuffle fd2).getD i "", false⟩ : Tile)).map Tile.emoji
        = shuffle fd2 := by
      rw [List.map_map]
      have : (Tile.emoji ∘ fun i => (⟨(shuffle fd2).getD i "", false⟩ : Tile))
          = fun i => (shuffle fd2).getD i "" := rfl
      rw [this, ← hdlen, range_map_getD]
    rw [hmap, hperm.count_eq, hfd2]
    have hcnt0 : deck0.count e = 2 * choice.count e := by
      rw [hdeck0, flatMap_pair_count]
    by_cases hodd : rows * cols % 2 = 1
    · rw [if_pos hodd, List.count_append, hcnt0, count_of_nodup choice e hnd]
      have : List.count e [FILLER] = 0 := by
        apply List.count_eq_zero_of_not_mem
        simp only [List.mem_singleton]
        exact fun hh => he hh
      rw [this]
      by_cases hm : e ∈ choice <;> simp [hm]
    · rw [if_neg hodd, hcnt0, count_of_nodup choice e hnd]
      by_cases hm : e ∈ choice <;> simp [hm]
  · -- every symbol is from the pool or the filler
    intro e hemem
    have hmap : ((List.range (rows * cols)).map fun i =>
        (⟨(shuffle fd2).getD i "", false⟩ : Tile)).map Tile.emoji
        = shuffle fd2 := by
      rw [List.map_map]
      have : (Tile.emoji ∘ fun i => (⟨(shuffle fd2).getD i "", false⟩ : Tile))
          = fun i => (shuffle fd2).getD i "" := rfl
      rw [this, ← hdlen, range_map_getD]
    rw [hmap] at hemem
    have h2 : e ∈ fd2 := hperm.mem_iff.mp hemem
    rw [hfd2] at h2
    by_cases hodd : rows * cols % 2 = 1
    · rw [if_pos hodd] at h2
      rcases List.mem_append.mp h2 with h3 | h3
      · rw [hdeck0] at h3
        exact Or.inl (hsub e ((mem_flatMap_pair choice e).mp h3))
      · simp only [List.mem_singleton] at h3
        exact Or.inr h3
    · rw [if_neg hodd] at h2
      rw [hdeck0] at h2
      exact Or.inl (hsub e ((mem_flatMap_pair choice e).mp h2))
  · -- filler count
    have hmap : ((List.range (rows * cols)).map fun i =>
        (⟨(shuffle fd2).getD i "", false⟩ : Tile)).map Tile.emoji
        = shuffle fd2 := by
      rw [List.map_map]
      have : (Tile.emoji ∘ fun i => (⟨(shuffle fd2).getD i "", false⟩ : Tile))
          = fun i => (shuffle fd2).getD i "" := rfl
      rw [this, ← hdlen, range_map_getD]
    rw [hmap, hperm.count_eq, hfd2]
    have hcnt0 : deck0.count FILLER = 0 := by
      rw [hdeck0, flatMap_pair_count]
      rw [List.count_eq_zero_of_not_mem hfe]
    by_cases hodd : rows * cols % 2 = 1
    · rw [if_pos hodd, List.count_append, hcnt0]
      rw [if_pos (Nat.odd_iff.mpr hodd)]
      simp
    · rw [if_neg hodd, hcnt0, if_neg (fun ho => hodd (Nat.odd_iff.mp ho))]
  · -- returned filler marker
    by_cases hodd : rows * cols % 2 = 1
    · rw [if_pos hodd, if_pos (Nat.odd_iff.mpr hodd)]
    · rw [if_neg hodd, if_neg (fun ho => hodd (Nat.odd_iff.mp ho))]
  · -- all tiles start unmatched
    intro t ht
    simp only [List.mem_map] at ht
    obtain ⟨i, _, hti⟩ := ht
    rw [← hti]

end EmojiPair

namespace EmojiPair

/-- C3 (witness): the amended generation theorem instantiated at a concrete
2×2 grid with the sample `["😀", "😅"]` and the identity shuffle. -/
theorem C3_witness :
    (1 ≤ 2 ∧ Sampled EMOJI_POOL (2 * 2 / 2) ["😀", "😅"] ∧ ShuffleOK id)
    ∧ ∃ grid filler,
        generate_game_grid 2 2 ["😀", "😅"] id = some (grid, filler)
        ∧ grid.length = 2 * 2
        ∧ (∀ e, e ≠ FILLER →
            (grid.map Tile.emoji).count e = if e ∈ ["😀", "😅"] then 2 else 0)
        ∧ (∀ e ∈ grid.map Tile.emoji, e ∈ EMOJI_POOL ∨ e = FILLER)
        ∧ (grid.map Tile.emoji).count FILLER = (if Odd (2 * 2) then 1 else 0)
        ∧ filler = (if Odd (2 * 2) then some FILLER else none)
        ∧ ∀ t ∈ grid, t.matched = false :=
  ⟨⟨by omega, by decide, fun l => List.Perm.refl l⟩,
   C3_amended 2 2 ["😀", "😅"] id (by omega) (by omega) (by decide)
     (fun l => List.Perm.refl l)⟩

end EmojiPair

namespace EmojiPair

/-- C1 (amended): once a session is finished, `is_finished` never reverts, so
it flips false-to-true at most once; but reveals are not gated on `finished`:
only a session whose tiles are all matched rejects every further reveal (as a
no-op error), while a session ended early still accepts reveals. -/
theorem C1_amended (w : World) (uid : Nat) (i : Int) (act : Action) (now : ℚ)
    (hlen : w.sess.grid.length = w.sess.rows * w.sess.cols) :
    (all_matched w.sess.grid = true →
      (handle_pick w uid i now).1 = w ∧ isErr (handle_pick w uid i now).2 = true)
    ∧ (w.sess.is_finished = true →
      (cb_game_actions w uid act now).1.sess.is_finished = true) :=
  ⟨fun hall => handle_pick_err w uid i now (pickErr_of_all_matched w.sess i hlen hall),
   fun h => cb_finished_mono w uid act now h⟩

/-- C1 (counterexample): a 1×2 session explicitly ended early has
`is_finished = true`, yet a subsequent reveal by another user is accepted:
it returns a single-reveal outcome and mutates `revealed` from `[]` to `[0]`,
so a finished session is not immutable. -/
theorem C1_counterexample :
    (run wC1 [⟨5, .endGame, 0⟩]).sess.is_finished = true
    ∧ (cb_game_actions (run wC1 [⟨5, .endGame, 0⟩]) 6 (.pick 0) 0).2
        = .pickRes (.singleReveal "😀")
    ∧ (run wC1 [⟨5, .endGame, 0⟩]).sess.revealed = []
    ∧ (cb_game_actions (run wC1 [⟨5, .endGame, 0⟩]) 6 (.pick 0) 0).1.sess.revealed
        = [0] := by
  decide

/-- C1 (witness): on a concrete fully-matched finished 1×2 session, a pick is
a no-op `AlreadyMatched` rejection, and any callback preserves
`is_finished = true`. -/
theorem C1_witness :
    (wC1b.sess.grid.length = wC1b.sess.rows * wC1b.sess.cols
     ∧ all_matched wC1b.sess.grid = true
     ∧ wC1b.sess.is_finished = true)
    ∧ ((handle_pick wC1b 6 0 0).1 = wC1b ∧ isErr (handle_pick wC1b 6 0 0).2 = true)
    ∧ (cb_game_actions wC1b 6 (.pick 0) 0).1.sess.is_finished = true :=
  ⟨⟨rfl, by decide, rfl⟩,
   (C1_amended wC1b 6 0 (.pick 0) 0 rfl).1 (by decide),
   (C1_amended wC1b 6 0 (.pick 0) 0 rfl).2 rfl⟩

/-- C4 (amended): a failing reveal (invalid position, already matched, or
already revealed) is a no-op on the session store inside the resolver, and
through the callback path it leaves the session, the chat and every other
user's record unchanged — except that the acting user's `cooldown_until` is
armed to `now + COOLDOWN_SECONDS` before validation. -/
theorem C4_amended (w : World) (uid : Nat) (i : Int) (now : ℚ)
    (herr : pickErr w.sess i = true) :
    (handle_pick w uid i now).1 = w
    ∧ isErr (handle_pick w uid i now).2 = true
    ∧ (¬now < cooldownOf w uid →
        (cb_game_actions w uid (.pick i) now).1.sess = w.sess
        ∧ (cb_game_actions w uid (.pick i) now).1.chat = w.chat
        ∧ (∃ r, (cb_game_actions w uid (.pick i) now).2 = .pickRes r
              ∧ isErr r = true)
        ∧ (∀ v, v ≠ uid →
            findUser (cb_game_actions w uid (.pick i) now).1.users v
              = findUser w.users v)
        ∧ findUser (cb_game_actions w uid (.pick i) now).1.users uid
            = some { (findUser w.users uid).getD zeroUser with
                     cooldown_until := now + COOLDOWN_SECONDS }) := by
  have h1 := handle_pick_err w uid i now herr
  refine ⟨h1.1, h1.2, ?_⟩
  intro hcd
  rw [cb_pick w uid i now hcd]
  have herr2 : pickErr (armCooldown w uid now).sess i = true := herr
  have h2 := handle_pick_err (armCooldown w uid now) uid i now herr2
  rw [h2.1]
  refine ⟨rfl, rfl, ⟨_, rfl, h2.2⟩, ?_, ?_⟩
  · intro v hv
    rw [findUser_armCooldown, if_neg hv]
  · rw [findUser_armCooldown, if_pos rfl]

/-- C4 (counterexample): an invalid-position reveal (position 99 on a 1×2
grid) is rejected, yet the users collection changes: the acting user's
cooldown record is created/armed, so the failing attempt is not a complete
no-op on persistent records. -/
theorem C4_counterexample :
    pickErr wC4.sess 99 = true
    ∧ (cb_game_actions wC4 5 (.pick 99) 0).2 = .pickRes .invalidCell
    ∧ (cb_game_actions wC4 5 (.pick 99) 0).1.users ≠ wC4.users := by
  decide

/-- C4 (witness): the amended no-op theorem instantiated at an
invalid-position pick on a concrete 1×2 session. -/
theorem C4_witness :
    pickErr wC4.sess 99 = true
    ∧ ¬(0 : ℚ) < cooldownOf wC4 5
    ∧ (handle_pick wC4 5 99 0).1 = wC4
    ∧ isErr (handle_pick wC4 5 99 0).2 = true
    ∧ ((cb_game_actions wC4 5 (.pick 99) 0).1.sess = wC4.sess
       ∧ (cb_game_actions wC4 5 (.pick 99) 0).1.chat = wC4.chat
       ∧ (∃ r, (cb_game_actions wC4 5 (.pick 99) 0).2 = .pickRes r ∧ isErr r = true)
       ∧ (∀ v, v ≠ 5 →
           findUser (cb_game_actions wC4 5 (.pick 99) 0).1.users v
             = findUser wC4.users v)
       ∧ findUser (cb_game_actions wC4 5 (.pick 99) 0).1.users 5
           = some { (findUser wC4.users 5).getD zeroUser with
                    cooldown_until := (0 : ℚ) + COOLDOWN_SECONDS }) :=
  ⟨by decide, by decide,
   (C4_amended wC4 5 99 0 (by decide)).1,
   (C4_amended wC4 5 99 0 (by decide)).2.1,
   (C4_amended wC4 5 99 0 (by decide)).2.2 (by decide)⟩

/-- C5 (amended): finalization increments lifetime `games_played` and sets
`best_score` to `max best_score score` for every participant that has a
stored user record; a participant with no stored record is skipped entirely
(no record is created); the chat's `games_played` and `total_activity` are
incremented, and the session is marked finished with a timestamp. -/
theorem C5_amended (w : World) (now : ℚ)
    (hnd : (w.sess.players.map Prod.fst).Nodup) :
    (∀ u p r, lookupPlayer w.sess.players u = some p →
        findUser w.users u = some r →
        findUser (finalize_game w now).users u
          = some { r with games_played := r.games_played + 1
                          best_score := max r.best_score p.score })
    ∧ (∀ u, findUser w.users u = none →
        findUser (finalize_game w now).users u = none)
    ∧ (∀ u, u ∉ w.sess.players.map Prod.fst →
        findUser (finalize_game w now).users u = findUser w.users u)
    ∧ (finalize_game w now).chat.games_played = w.chat.games_played + 1
    ∧ (finalize_game w now).chat.total_activity = w.chat.total_activity + 1
    ∧ (finalize_game w now).sess.is_finished = true
    ∧ (finalize_game w now).sess.finished_at = some now := by
  refine ⟨?_, ?_, ?_, rfl, rfl, ?_, ?_⟩
  · intro u p r hl hr
    rw [finalize_game_users]
    exact foldl_bumpFinal_mem _ _ _ _ _ hnd hl hr
  · intro u h
    rw [finalize_game_users]
    exact foldl_bumpFinal_none _ _ _ h
  · intro u h
    rw [finalize_game_users]
    exact foldl_bumpFinal_not_mem _ _ _ h
  · rw [finalize_game_sess]
  · rw [finalize_game_sess]

/-- C5 (counterexample): a session whose only participant (the creator, id 7)
has no stored user record is finalized by another user; participant 7
receives no `games_played` increment and no `best_score` update — their
record remains nonexistent — contradicting "for every participant present
in the players map". -/
theorem C5_counterexample :
    wC5.sess.players = [(7, ⟨1, 10⟩)]
    ∧ findUser wC5.users 7 = none
    ∧ (run wC5 [⟨8, .endGame, 3⟩]).sess.is_finished = true
    ∧ findUser (run wC5 [⟨8, .endGame, 3⟩]).users 7 = none := by
  decide

/-- C5 (witness): the amended finalization theorem instantiated on a concrete
session with participant 7 (session score 10) whose stored record exists
(`games_played = 2`, `best_score = 4`). -/
theorem C5_witness :
    (wC5b.sess.players.map Prod.fst).Nodup
    ∧ lookupPlayer wC5b.sess.players 7 = some ⟨1, 10⟩
    ∧ findUser wC5b.users 7 = some ⟨2, 5, 50, 4, 0⟩
    ∧ findUser (finalize_game wC5b 3).users 7
        = some { (⟨2, 5, 50, 4, 0⟩ : UserRec) with
                 games_played := (⟨2, 5, 50, 4, 0⟩ : UserRec).games_played + 1
                 best_score := max (⟨2, 5, 50, 4, 0⟩ : UserRec).best_score
                   (⟨1, 10⟩ : PlayerStats).score }
    ∧ (finalize_game wC5b 3).sess.is_finished = true
    ∧ (finalize_game wC5b 3).sess.finished_at = some 3 :=
  ⟨by decide, by decide, by decide,
   (C5_amended wC5b 3 (by decide)).1 7 ⟨1, 10⟩ ⟨2, 5, 50, 4, 0⟩ (by decide) (by decide),
   (C5_amended wC5b 3 (by decide)).2.2.2.2.2.1,
   (C5_amended wC5b 3 (by decide)).2.2.2.2.2.2⟩

/-- C6: a reveal attempt at `now < cooldown_until` is rejected as
rate-limited with no state change; otherwise it proceeds to the resolver and
the user's `cooldown_until` becomes `now + COOLDOWN_SECONDS`, with
`COOLDOWN_SECONDS = 1` second. -/
theorem C6_cooldown_gate (w : World) (uid : Nat) (i : Int) (now : ℚ) :
    COOLDOWN_SECONDS = 1
    ∧ (now < cooldownOf w uid →
        cb_game_actions w uid (.pick i) now = (w, .rateLimited))
    ∧ (¬now < cooldownOf w uid →
        (∃ r, (cb_game_actions w uid (.pick i) now).2 = .pickRes r)
        ∧ (findUser (cb_game_actions w uid (.pick i) now).1.users uid).map
            UserRec.cooldown_until = some (now + COOLDOWN_SECONDS)) := by
  refine ⟨rfl, fun h => cb_rate_limited w uid _ now h, fun h => ?_⟩
  rw [cb_pick w uid i now h]
  refine ⟨⟨_, rfl⟩, ?_⟩
  rw [handle_pick_cooldown, findUser_armCooldown, if_pos rfl]
  rfl

/-- C6 (witness): the cooldown-gate theorem instantiated on a user whose
`cooldown_until` is 10: a pick at time 3 is rate-limited unchanged; a pick
at time 12 proceeds and re-arms the cooldown to 13. -/
theorem C6_witness :
    ((3 : ℚ) < cooldownOf wC6 5
     ∧ cb_game_actions wC6 5 (.pick 0) 3 = (wC6, .rateLimited))
    ∧ (¬(12 : ℚ) < cooldownOf wC6 5
       ∧ (findUser (cb_game_actions wC6 5 (.pick 0) 12).1.users 5).map
           UserRec.cooldown_until = some (12 + COOLDOWN_SECONDS)) :=
  ⟨⟨by decide, (C6_cooldown_gate wC6 5 0 3).2.1 (by decide)⟩,
   ⟨by decide, ((C6_cooldown_gate wC6 5 0 12).2.2 (by decide)).2⟩⟩

end EmojiPair

namespace EmojiPair

/-- C2: in a one-revealed session, a second valid reveal carrying the same
symbol resolves as a match: session `pairs_found` +1 and `score` +10, both
tiles marked matched, the acting user's per-session counters +1/+10, their
lifetime `pairs_found`/`total_points` +1/+10, and `revealed` cleared. -/
theorem C2_match_scoring (w : World) (uid i1 i2 : Nat) (now : ℚ)
    (hcd : ¬now < cooldownOf w uid)
    (hrev : w.sess.revealed = [i1])
    (hlen : w.sess.grid.length = w.sess.rows * w.sess.cols)
    (hi1 : i1 < w.sess.grid.length)
    (hi2 : i2 < w.sess.rows * w.sess.cols)
    (hm2 : (w.sess.grid.getD i2 defaultTile).matched = false)
    (hne : i2 ≠ i1)
    (heq : (w.sess.grid.getD i1 defaultTile).emoji
         = (w.sess.grid.getD i2 defaultTile).emoji) :
    (cb_game_actions w uid (.pick (i2 : Int)) now).2 = .pickRes .matchFound
    ∧ (cb_game_actions w uid (.pick (i2 : Int)) now).1.sess.pairs_found
        = w.sess.pairs_found + 1
    ∧ (cb_game_actions w uid (.pick (i2 : Int)) now).1.sess.score
        = w.sess.score + 10
    ∧ ((cb_game_actions w uid (.pick (i2 : Int)) now).1.sess.grid.getD i1
        defaultTile).matched = true
    ∧ ((cb_game_actions w uid (.pick (i2 : Int)) now).1.sess.grid.getD i2
        defaultTile).matched = true
    ∧ lookupPlayer (cb_game_actions w uid (.pick (i2 : Int)) now).1.sess.players uid
        = some ⟨((lookupPlayer w.sess.players uid).getD ⟨0, 0⟩).pairs_found + 1,
                ((lookupPlayer w.sess.players uid).getD ⟨0, 0⟩).score + 10⟩
    ∧ (findUser (cb_game_actions w uid (.pick (i2 : Int)) now).1.users uid).map
        UserRec.pairs_found
        = some (((findUser w.users uid).getD zeroUser).pairs_found + 1)
    ∧ (findUser (cb_game_actions w uid (.pick (i2 : Int)) now).1.users uid).map
        UserRec.total_points
        = some (((findUser w.users uid).getD zeroUser).total_points + 10)
    ∧ (cb_game_actions w uid (.pick (i2 : Int)) now).1.sess.revealed = [] := by
  rw [cb_pick w uid _ now hcd]
  have htn : ((i2 : Int)).toNat = i2 := rfl
  have herr : pickErr (armCooldown w uid now).sess (i2 : Int) = false := by
    unfold pickErr
    rw [armCooldown_sess]
    simp only [htn, Bool.or_eq_false_iff, decide_eq_false_iff_not]
    refine ⟨⟨⟨by omega, by omega⟩, hm2⟩, ?_⟩
    rw [hrev]
    simp [hne]
  have heq2 : ((armCooldown w uid now).sess.grid.getD i1 defaultTile).emoji
      = ((armCooldown w uid now).sess.grid.getD ((i2 : Int)).toNat defaultTile).emoji := by
    rw [armCooldown_sess, htn]
    exact heq
  have hrev2 : (armCooldown w uid now).sess.revealed = [i1] := by
    rw [armCooldown_sess]
    exact hrev
  rw [handle_pick_match (armCooldown w uid now) uid i1 (i2 : Int) now hrev2 herr heq2]
  refine ⟨rfl, ?_, ?_, ?_, ?_, ?_, ?_, ?_, ?_⟩
  · rw [maybeFinalize_pairs]
    rfl
  · rw [maybeFinalize_score]
    rfl
  · rw [maybeFinalize_grid]
    show ((setMatched (setMatched w.sess.grid i1) ((i2 : Int)).toNat).getD i1
        defaultTile).matched = true
    have h1 : (setMatched (setMatched w.sess.grid i1) ((i2 : Int)).toNat).getD i1
        defaultTile = (setMatched w.sess.grid i1).getD i1 defaultTile := by
      apply getD_setMatched_ne
      rw [htn]
      exact hne
    rw [h1, getD_setMatched_self _ _ hi1]
  · rw [maybeFinalize_grid]
    show ((setMatched (setMatched w.sess.grid i1) ((i2 : Int)).toNat).getD i2
        defaultTile).matched = true
    have hlen2 : i2 < (setMatched w.sess.grid i1).length := by
      rw [length_setMatched, hlen]
      exact hi2
    rw [htn, getD_setMatched_self _ _ hlen2]
  · rw [maybeFinalize_players]
    show lookupPlayer (incPlayer w.sess.players uid 1 10) uid = _
    rw [lookupPlayer_incPlayer, if_pos rfl]
  · rw [maybeFinalize_users_map UserRec.pairs_found _ now uid (fun r => rfl)
        (fun r s => rfl)]
    show (findUser (updUser (armCooldown w uid now).users uid fun r =>
        { r with pairs_found := r.pairs_found + 1
                 total_points := r.total_points + 10 }) uid).map UserRec.pairs_found
      = _
    rw [findUser_updUser, if_pos rfl, findUser_armCooldown, if_pos rfl]
    rfl
  · rw [maybeFinalize_users_map UserRec.total_points _ now uid (fun r => rfl)
        (fun r s => rfl)]
    show (findUser (updUser (armCooldown w uid now).users uid fun r =>
        { r with pairs_found := r.pairs_found + 1
                 total_points := r.total_points + 10 }) uid).map UserRec.total_points
      = _
    rw [findUser_updUser, if_pos rfl, findUser_armCooldown, if_pos rfl]
    rfl
  · rw [maybeFinalize_revealed]

end EmojiPair

namespace EmojiPair

/-- C2 (witness): the match-scoring theorem instantiated on a concrete 1×2
session with `revealed = [0]` and a matching pick of position 1 by user 6. -/
theorem C2_witness :
    (¬(0 : ℚ) < cooldownOf wC2 6
     ∧ wC2.sess.revealed = [0]
     ∧ (wC2.sess.grid.getD 0 defaultTile).emoji
         = (wC2.sess.grid.getD 1 defaultTile).emoji)
    ∧ (cb_game_actions wC2 6 (.pick (1 : Nat)) 0).2 = .pickRes .matchFound
    ∧ (cb_game_actions wC2 6 (.pick (1 : Nat)) 0).1.sess.pairs_found
        = wC2.sess.pairs_found + 1
    ∧ (cb_game_actions wC2 6 (.pick (1 : Nat)) 0).1.sess.score
        = wC2.sess.score + 10
    ∧ ((cb_game_actions wC2 6 (.pick (1 : Nat)) 0).1.sess.grid.getD 0
        defaultTile).matched = true
    ∧ ((cb_game_actions wC2 6 (.pick (1 : Nat)) 0).1.sess.grid.getD 1
        defaultTile).matched = true
    ∧ lookupPlayer (cb_game_actions wC2 6 (.pick (1 : Nat)) 0).1.sess.players 6
        = some ⟨((lookupPlayer wC2.sess.players 6).getD ⟨0, 0⟩).pairs_found + 1,
                ((lookupPlayer wC2.sess.players 6).getD ⟨0, 0⟩).score + 10⟩
    ∧ (findUser (cb_game_actions wC2 6 (.pick (1 : Nat)) 0).1.users 6).map
        UserRec.pairs_found
        = some (((findUser wC2.users 6).getD zeroUser).pairs_found + 1)
    ∧ (findUser (cb_game_actions wC2 6 (.pick (1 : Nat)) 0).1.users 6).map
        UserRec.total_points
        = some (((findUser wC2.users 6).getD zeroUser).total_points + 10)
    ∧ (cb_game_actions wC2 6 (.pick (1 : Nat)) 0).1.sess.revealed = [] :=
  ⟨⟨by decide, rfl, by decide⟩,
   C2_match_scoring wC2 6 0 1 0 (by decide) rfl rfl (by decide) (by decide)
     (by decide) (by decide) (by decide)⟩

/-- C7: when the second reveal pairs a filler tile with a non-filler tile,
the resolution is a filler auto-match: only the filler-carrying tile is
marked matched, the other tile and all other positions are untouched, no
session, per-player or lifetime point counters change, the revealed set is
cleared, and (when the grid is not thereby completed) the users collection
and chat record are entirely unchanged. -/
theorem C7_filler_automatch (w : World) (uid i1 i2 : Nat) (now : ℚ) (f : String)
    (hfil : w.sess.filler = some f)
    (hrev : w.sess.revealed = [i1])
    (hlen : w.sess.grid.length = w.sess.rows * w.sess.cols)
    (hi1 : i1 < w.sess.grid.length)
    (hi2 : i2 < w.sess.rows * w.sess.cols)
    (hm2 : (w.sess.grid.getD i2 defaultTile).matched = false)
    (hne : i2 ≠ i1)
    (hx : ((w.sess.grid.getD i1 defaultTile).emoji = f
            ∧ (w.sess.grid.getD i2 defaultTile).emoji ≠ f)
        ∨ ((w.sess.grid.getD i1 defaultTile).emoji ≠ f
            ∧ (w.sess.grid.getD i2 defaultTile).emoji = f)) :
    (handle_pick w uid (i2 : Int) now).2 = .fillerFound
    ∧ ((w.sess.grid.getD i1 defaultTile).emoji = f →
        ((handle_pick w uid (i2 : Int) now).1.sess.grid.getD i1 defaultTile).matched
          = true
        ∧ (handle_pick w uid (i2 : Int) now).1.sess.grid.getD i2 defaultTile
            = w.sess.grid.getD i2 defaultTile)
    ∧ ((w.sess.grid.getD i2 defaultTile).emoji = f →
        ((handle_pick w uid (i2 : Int) now).1.sess.grid.getD i2 defaultTile).matched
          = true
        ∧ (handle_pick w uid (i2 : Int) now).1.sess.grid.getD i1 defaultTile
            = w.sess.grid.getD i1 defaultTile)
    ∧ (∀ j, j ≠ i1 → j ≠ i2 →
        (handle_pick w uid (i2 : Int) now).1.sess.grid.getD j defaultTile
          = w.sess.grid.getD j defaultTile)
    ∧ (handle_pick w uid (i2 : Int) now).1.sess.score = w.sess.score
    ∧ (handle_pick w uid (i2 : Int) now).1.sess.pairs_found = w.sess.pairs_found
    ∧ (handle_pick w uid (i2 : Int) now).1.sess.players = w.sess.players
    ∧ (∀ v, (findUser (handle_pick w uid (i2 : Int) now).1.users v).map
          UserRec.pairs_found = (findUser w.users v).map UserRec.pairs_found)
    ∧ (∀ v, (findUser (handle_pick w uid (i2 : Int) now).1.users v).map
          UserRec.total_points = (findUser w.users v).map UserRec.total_points)
    ∧ (all_matched (handle_pick w uid (i2 : Int) now).1.sess.grid = false →
        (handle_pick w uid (i2 : Int) now).1.users = w.users
        ∧ (handle_pick w uid (i2 : Int) now).1.chat = w.chat)
    ∧ (handle_pick w uid (i2 : Int) now).1.sess.revealed = [] := by
  have htn : ((i2 : Int)).toNat = i2 := rfl
  have herr : pickErr w.sess (i2 : Int) = false := by
    unfold pickErr
    simp only [htn, Bool.or_eq_false_iff, decide_eq_false_iff_not]
    refine ⟨⟨⟨by omega, by omega⟩, hm2⟩, ?_⟩
    rw [hrev]
    simp [hne]
  have hne2 : (w.sess.grid.getD i1 defaultTile).emoji
      ≠ (w.sess.grid.getD ((i2 : Int)).toNat defaultTile).emoji := by
    rw [htn]
    rcases hx with ⟨h1, h2⟩ | ⟨h1, h2⟩
    · rw [h1]
      exact fun hh => h2 hh.symm
    · exact fun hh => h1 (hh.trans h2)
  have hhit : (w.sess.grid.getD i1 defaultTile).emoji = f
      ∨ (w.sess.grid.getD ((i2 : Int)).toNat defaultTile).emoji = f := by
    rw [htn]
    rcases hx with ⟨h1, _⟩ | ⟨_, h2⟩
    · exact Or.inl h1
    · exact Or.inr h2
  rw [handle_pick_filler w uid i1 (i2 : Int) now f hrev herr hne2 hfil hhit]
  rcases hx with ⟨h1f, h2nf⟩ | ⟨h1nf, h2f⟩
  · have hgb : (if (w.sess.grid.getD ((i2 : Int)).toNat defaultTile).emoji = f then
        setMatched
          (if (w.sess.grid.getD i1 defaultTile).emoji = f then
            setMatched w.sess.grid i1
          else w.sess.grid) ((i2 : Int)).toNat
      else
        if (w.sess.grid.getD i1 defaultTile).emoji = f then
          setMatched w.sess.grid i1
        else w.sess.grid) = setMatched w.sess.grid i1 := by
      rw [htn, if_neg h2nf, if_pos h1f]
    refine ⟨rfl, ?_, ?_, ?_, ?_, ?_, ?_, ?_, ?_, ?_, ?_⟩
    · intro _
      rw [maybeFinalize_grid]
      show ((_ : List Tile).getD i1 defaultTile).matched = true
        ∧ (_ : List Tile).getD i2 defaultTile = w.sess.grid.getD i2 defaultTile
      rw [hgb]
      exact ⟨by rw [getD_setMatched_self _ _ hi1],
             getD_setMatched_ne _ _ _ fun hh => hne hh.symm⟩
    · intro h2f
      exact absurd h2f h2nf
    · intro j hj1 _
      rw [maybeFinalize_grid]
      show (_ : List Tile).getD j defaultTile = w.sess.grid.getD j defaultTile
      rw [hgb]
      exact getD_setMatched_ne _ _ _ fun hh => hj1 hh.symm
    · rw [maybeFinalize_score]
    · rw [maybeFinalize_pairs]
    · rw [maybeFinalize_players]
    · intro v
      rw [maybeFinalize_users_map UserRec.pairs_found _ now v (fun r => rfl)
          (fun r s => rfl)]
    · intro v
      rw [maybeFinalize_users_map UserRec.total_points _ now v (fun r => rfl)
          (fun r s => rfl)]
    · intro hnall
      rw [maybeFinalize_grid] at hnall
      rw [maybeFinalize_of_not_all _ _ hnall]
      exact ⟨rfl, rfl⟩
    · rw [maybeFinalize_revealed]
  · have hgb : (if (w.sess.grid.getD ((i2 : Int)).toNat defaultTile).emoji = f then
        setMatched
          (if (w.sess.grid.getD i1 defaultTile).emoji = f then
            setMatched w.sess.grid i1
          else w.sess.grid) ((i2 : Int)).toNat
      else
        if (w.sess.grid.getD i1 defaultTile).emoji = f then
          setMatched w.sess.grid i1
        else w.sess.grid) = setMatched w.sess.grid i2 := by
      rw [htn, if_pos h2f, if_neg h1nf]
    refine ⟨rfl, ?_, ?_, ?_, ?_, ?_, ?_, ?_, ?_, ?_, ?_⟩
    · intro h1f
      exact absurd h1f h1nf
    · intro _
      rw [maybeFinalize_grid]
      show ((_ : List Tile).getD i2 defaultTile).matched = true
        ∧ (_ : List Tile).getD i1 defaultTile = w.sess.grid.getD i1 defaultTile
      rw [hgb]
      have hi2' : i2 < w.sess.grid.length := by omega
      exact ⟨by rw [getD_setMatched_self _ _ hi2'],
             getD_setMatched_ne _ _ _ hne⟩
    · intro j _ hj2
      rw [maybeFinalize_grid]
      show (_ : List Tile).getD j defaultTile = w.sess.grid.getD j defaultTile
      rw [hgb]
      exact getD_setMatched_ne _ _ _ fun hh => hj2 hh.symm
    · rw [maybeFinalize_score]
    · rw [maybeFinalize_pairs]
    · rw [maybeFinalize_players]
    · intro v
      rw [maybeFinalize_users_map UserRec.pairs_found _ now v (fun r => rfl)
          (fun r s => rfl)]
    · intro v
      rw [maybeFinalize_users_map UserRec.total_points _ now v (fun r => rfl)
          (fun r s => rfl)]
    · intro hnall
      rw [maybeFinalize_grid] at hnall
      rw [maybeFinalize_of_not_all _ _ hnall]
      exact ⟨rfl, rfl⟩
    · rw [maybeFinalize_revealed]

end EmojiPair

namespace EmojiPair

/-- C7 (witness): the filler auto-match theorem instantiated on a concrete
1×3 session `[😀, ⬜, 😀]` with filler `⬜`, `revealed = [0]` and a pick of
the filler position 1. -/
theorem C7_witness :
    (wC7.sess.filler = some "⬜"
     ∧ wC7.sess.revealed = [0]
     ∧ (wC7.sess.grid.getD 0 defaultTile).emoji ≠ "⬜"
     ∧ (wC7.sess.grid.getD 1 defaultTile).emoji = "⬜")
    ∧ (handle_pick wC7 6 (1 : Nat) 0).2 = .fillerFound
    ∧ (((wC7.sess.grid.getD 1 defaultTile).emoji = "⬜" →
        ((handle_pick wC7 6 (1 : Nat) 0).1.sess.grid.getD 1 defaultTile).matched
          = true
        ∧ (handle_pick wC7 6 (1 : Nat) 0).1.sess.grid.getD 0 defaultTile
            = wC7.sess.grid.getD 0 defaultTile))
    ∧ (handle_pick wC7 6 (1 : Nat) 0).1.sess.score = wC7.sess.score
    ∧ (handle_pick wC7 6 (1 : Nat) 0).1.sess.pairs_found = wC7.sess.pairs_found
    ∧ (handle_pick wC7 6 (1 : Nat) 0).1.sess.players = wC7.sess.players
    ∧ (all_matched (handle_pick wC7 6 (1 : Nat) 0).1.sess.grid = false →
        (handle_pick wC7 6 (1 : Nat) 0).1.users = wC7.users
        ∧ (handle_pick wC7 6 (1 : Nat) 0).1.chat = wC7.chat)
    ∧ (handle_pick wC7 6 (1 : Nat) 0).1.sess.revealed = [] :=
  ⟨⟨rfl, rfl, by decide, rfl⟩,
   (C7_filler_automatch wC7 6 0 1 0 "⬜" rfl rfl rfl (by decide) (by decide)
      (by decide) (by decide) (Or.inr ⟨by decide, rfl⟩)).1,
   (C7_filler_automatch wC7 6 0 1 0 "⬜" rfl rfl rfl (by decide) (by decide)
      (by decide) (by decide) (Or.inr ⟨by decide, rfl⟩)).2.2.1,
   (C7_filler_automatch wC7 6 0 1 0 "⬜" rfl rfl rfl (by decide) (by decide)
      (by decide) (by decide) (Or.inr ⟨by decide, rfl⟩)).2.2.2.2.1,
   (C7_filler_automatch wC7 6 0 1 0 "⬜" rfl rfl rfl (by decide) (by decide)
      (by decide) (by decide) (Or.inr ⟨by decide, rfl⟩)).2.2.2.2.2.1,
   (C7_filler_automatch wC7 6 0 1 0 "⬜" rfl rfl rfl (by decide) (by decide)
      (by decide) (by decide) (Or.inr ⟨by decide, rfl⟩)).2.2.2.2.2.2.1,
   (C7_filler_automatch wC7 6 0 1 0 "⬜" rfl rfl rfl (by decide) (by decide)
      (by decide) (by decide) (Or.inr ⟨by decide, rfl⟩)).2.2.2.2.2.2.2.2.2.1,
   (C7_filler_automatch wC7 6 0 1 0 "⬜" rfl rfl rfl (by decide) (by decide)
      (by decide) (by decide) (Or.inr ⟨by decide, rfl⟩)).2.2.2.2.2.2.2.2.2.2⟩

end EmojiPair

namespace EmojiPair

/-- C9: the fresh game document starts all score/pair counters at 0, and in
every reachable session state the aggregate `score` equals `10 *
pairs_found`, and every entry of the players map satisfies
`score = 10 * pairs_found` (the two are only ever bumped together by
(10, 1) on a successful match). -/
theorem C9_score_ten_per_pair (owner rows cols : Nat) (grid : List Tile)
    (filler : Option String) (st : ℚ) (users : List (Nat × UserRec))
    (chat : ChatRec) (w0 : World) (ops : List Ev)
    (hw0 : w0 = ⟨new_game_doc owner rows cols grid filler st, users, chat⟩) :
    (w0.sess.score = 0 ∧ w0.sess.pairs_found = 0
     ∧ ∀ p ∈ w0.sess.players, p.2.score = 0 ∧ p.2.pairs_found = 0)
    ∧ ((run w0 ops).sess.score = 10 * (run w0 ops).sess.pairs_found
       ∧ ∀ p ∈ (run w0 ops).sess.players, p.2.score = 10 * p.2.pairs_found) := by
  subst hw0
  constructor
  · refine ⟨rfl, rfl, ?_⟩
    intro p hp
    simp only [new_game_doc, List.mem_singleton] at hp
    subst hp
    exact ⟨rfl, rfl⟩
  · refine run_inv9 _ ops ⟨rfl, ?_⟩
    intro p hp
    simp only [new_game_doc, List.mem_singleton] at hp
    subst hp
    rfl

/-- C8: in every session reachable from a fresh game document, the revealed
set at rest holds at most 2 (in fact at most 1) positions; a successful
first reveal leaves exactly 1 entry, and a second reveal on a one-revealed
session always resolves (match, filler or mismatch) and clears the revealed
set back to empty. -/
theorem C8_revealed_at_most_two (owner rows cols : Nat) (grid : List Tile)
    (filler : Option String) (st : ℚ) (users : List (Nat × UserRec))
    (chat : ChatRec) (w0 : World) (ops : List Ev)
    (hw0 : w0 = ⟨new_game_doc owner rows cols grid filler st, users, chat⟩) :
    (run w0 ops).sess.revealed.length ≤ 2
    ∧ (∀ uid i now e,
        (handle_pick (run w0 ops) uid i now).2 = .singleReveal e →
        (handle_pick (run w0 ops) uid i now).1.sess.revealed.length = 1)
    ∧ (∀ uid i now,
        (run w0 ops).sess.revealed.length = 1 →
        isErr (handle_pick (run w0 ops) uid i now).2 = false →
        isResolution (handle_pick (run w0 ops) uid i now).2 = true
        ∧ (handle_pick (run w0 ops) uid i now).1.sess.revealed = []) := by
  have hinv : (run w0 ops).sess.revealed.length ≤ 1 := by
    subst hw0
    exact run_inv8 _ _ (by simp [new_game_doc])
  refine ⟨by omega, ?_, ?_⟩
  · intro uid i now e hres
    by_cases herr : pickErr (run w0 ops).sess i = true
    · have h := handle_pick_err (run w0 ops) uid i now herr
      rw [hres] at h
      simp [isErr] at h
    · have herr2 : pickErr (run w0 ops).sess i = false := by
        simpa using herr
      cases hrev : (run w0 ops).sess.revealed with
      | nil =>
        rw [handle_pick_single (run w0 ops) uid i now hrev herr2]
        rfl
      | cons a tl =>
        cases tl with
        | nil =>
          have h2 := handle_pick_second_shape (run w0 ops) uid a i now hrev herr2
          rw [hres] at h2
          simp [isResolution] at h2
        | cons b tl2 =>
          rw [hrev] at hinv
          simp only [List.length_cons] at hinv
          omega
  · intro uid i now hlen1 herrF
    cases hrev : (run w0 ops).sess.revealed with
    | nil =>
      rw [hrev] at hlen1
      simp at hlen1
    | cons a tl =>
      cases tl with
      | nil =>
        by_cases herr : pickErr (run w0 ops).sess i = true
        · have h := handle_pick_err (run w0 ops) uid i now herr
          rw [h.2] at herrF
          exact absurd herrF (by decide)
        · exact handle_pick_second_shape (run w0 ops) uid a i now hrev
            (by simpa using herr)
      | cons b tl2 =>
        rw [hrev] at hlen1
        simp only [List.length_cons] at hlen1
        omega

/-- C10: in every state reachable from a fresh game document, the players
map contains exactly the session creator plus the users credited with at
least one successful match along the run; a user outside the players map is
untouched by finalization (no `games_played` increment, no `best_score`
update — their user record is left exactly as it was). -/
theorem C10_players_membership (owner rows cols : Nat) (grid : List Tile)
    (filler : Option String) (st : ℚ) (users : List (Nat × UserRec))
    (chat : ChatRec) (w0 : World) (ops : List Ev) (v : Nat) (now : ℚ)
    (hw0 : w0 = ⟨new_game_doc owner rows cols grid filler st, users, chat⟩) :
    (v ∈ (run w0 ops).sess.players.map Prod.fst ↔
      (v = owner ∨ v ∈ matchersOf w0 ops))
    ∧ (v ∉ (run w0 ops).sess.players.map Prod.fst →
        findUser (finalize_game (run w0 ops) now).users v
          = findUser (run w0 ops).users v) := by
  constructor
  · rw [run_players_keys]
    have hinit : v ∈ w0.sess.players.map Prod.fst ↔ v = owner := by
      subst hw0
      simp [new_game_doc]
    rw [hinit]
  · intro hn
    rw [finalize_game_users]
    exact foldl_bumpFinal_not_mem _ _ _ hn

end EmojiPair

namespace EmojiPair

/-- C8 (witness): on a concrete 1×2 session after one reveal, the invariant
bound holds, and the second reveal resolves and clears the revealed set. -/
theorem C8_witness :
    wC8 = ⟨new_game_doc 7 1 2 [⟨"😀", false⟩, ⟨"😀", false⟩] none 0, [], ⟨0, 0⟩⟩
    ∧ (run wC8 opsC8).sess.revealed.length ≤ 2
    ∧ (run wC8 opsC8).sess.revealed.length = 1
    ∧ isErr (handle_pick (run wC8 opsC8) 6 1 5).2 = false
    ∧ (isResolution (handle_pick (run wC8 opsC8) 6 1 5).2 = true
       ∧ (handle_pick (run wC8 opsC8) 6 1 5).1.sess.revealed = []) :=
  ⟨rfl,
   (C8_revealed_at_most_two 7 1 2 [⟨"😀", false⟩, ⟨"😀", false⟩] none 0 [] ⟨0, 0⟩
     wC8 opsC8 rfl).1,
   by decide, by decide,
   (C8_revealed_at_most_two 7 1 2 [⟨"😀", false⟩, ⟨"😀", false⟩] none 0 [] ⟨0, 0⟩
     wC8 opsC8 rfl).2.2 6 1 5 (by decide) (by decide)⟩

/-- C9 (witness): the scoring invariant instantiated on a concrete 1×2
session played to completion by user 6. -/
theorem C9_witness :
    (wC9.sess.score = 0 ∧ wC9.sess.pairs_found = 0
     ∧ ∀ p ∈ wC9.sess.players, p.2.score = 0 ∧ p.2.pairs_found = 0)
    ∧ ((run wC9 opsC9).sess.score = 10 * (run wC9 opsC9).sess.pairs_found
       ∧ ∀ p ∈ (run wC9 opsC9).sess.players, p.2.score = 10 * p.2.pairs_found) :=
  C9_score_ten_per_pair 7 1 2 [⟨"😀", false⟩, ⟨"😀", false⟩] none 0 [] ⟨0, 0⟩
    wC9 opsC9 rfl

/-- C10 (witness): on a concrete 1×2 run where users 5 and 6 reveal and 6
completes the match, user 9 is not in the players map and finalization
leaves user 9's record untouched. -/
theorem C10_witness :
    9 ∉ (run wC10 opsC10).sess.players.map Prod.fst
    ∧ (9 ∈ (run wC10 opsC10).sess.players.map Prod.fst ↔
        (9 = 7 ∨ 9 ∈ matchersOf wC10 opsC10))
    ∧ findUser (finalize_game (run wC10 opsC10) 8).users 9
        = findUser (run wC10 opsC10).users 9 :=
  ⟨by decide,
   (C10_players_membership 7 1 2 [⟨"😀", false⟩, ⟨"😀", false⟩] none 0 [] ⟨0, 0⟩
     wC10 opsC10 9 8 rfl).1,
   (C10_players_membership 7 1 2 [⟨"😀", false⟩, ⟨"😀", false⟩] none 0 [] ⟨0, 0⟩
     wC10 opsC10 9 8 rfl).2 (by decide)⟩

end EmojiPair
